import Mathlib

/-!
# Network-policy reconciliation core of kube-ovn

A shallow embedding of `pkg/controller/network_policy.go`: the selector
matcher (`isPodMatchPolicyPeer`, `isPodMatchNetworkPolicy`), the address
resolver (`fetchPolicySelectedAddresses`, `fetchSelectedPorts`) and the
translator (`handleUpdateNp`, `handleDeleteNp`), together with the parts of
the Kubernetes label-selector library and of the listers that the code calls.

Conventions of the embedding:

* a Go `nil` pointer or `nil` slice that the code tests with `== nil` is an
  `Option`; a slice that is only ranged over or appended is a `List`;
* a Go function returning `(value, error)` returns `Except String value`; where
  a nil-interface method call can be reached the result is an `Outcome`, whose
  third constructor `panic` is the Go run-time panic, and a Go function
  returning `bool` that can panic returns `Option Bool`, `none` for the panic;
* the OVN backend is a state threaded through `OvnM`;
* logging (`klog`) and event recording are not modelled.
-/

namespace KubeOvn

/-! ## Go string helpers -/

/-- Go `strings.Split(s, string(sep))` on a list of characters. An empty input
gives one empty part, as in Go. -/
def splitOnChar (sep : Char) : List Char → List (List Char)
  | [] => [[]]
  | c :: cs =>
    if c = sep then [] :: splitOnChar sep cs
    else
      match splitOnChar sep cs with
      | [] => [[c]]
      | p :: ps => (c :: p) :: ps

/-- Go `strings.Split(s, "/")`. -/
def splitSlash (s : String) : List String :=
  (splitOnChar '/' s.data).map String.mk

/-- Go `strings.Contains` on lists of characters. -/
def containsChars (sub : List Char) : List Char → Bool
  | [] => sub.isPrefixOf []
  | c :: cs => sub.isPrefixOf (c :: cs) || containsChars sub cs

/-- Go `strings.Contains(s, sub)`. -/
def stringsContains (s sub : String) : Bool :=
  containsChars sub.data s.data

/-- Go `strings.Replace(s, "-", ".", -1)`: every hyphen becomes a dot. -/
def replaceHyphens (s : String) : String :=
  ⟨s.data.map fun c => if c = '-' then '.' else c⟩

/-! ## Labels (`k8s.io/apimachinery/pkg/labels`) -/

/-- Go `labels.Set`, a `map[string]string` of labels or annotations, as an
association list read by first match. -/
abbrev LabelSet := List (String × String)

/-- Go `labels.Set.Has`. -/
def LabelSet.Has (ls : LabelSet) (key : String) : Bool :=
  (ls.lookup key).isSome

/-- Go `labels.Set.Get`, also the map index `m[key]`: the empty string for a
missing key. -/
def LabelSet.Get (ls : LabelSet) (key : String) : String :=
  (ls.lookup key).getD ""

/-- The operators of `selection.Operator` that `LabelSelectorAsSelector` can
produce. -/
inductive Operator where
  | In | NotIn | Equals | Exists | DoesNotExist
  deriving DecidableEq, Repr

/-- Go `labels.Requirement`. -/
structure Requirement where
  key : String
  operator : Operator
  strValues : List String
  deriving DecidableEq, Repr

/-- Go `labels.Selector`: `labels.Nothing()` or an `internalSelector`, a list
of requirements; `labels.Everything()` is the empty `internalSelector`. -/
inductive Selector where
  | nothing
  | internal (reqs : List Requirement)
  deriving DecidableEq, Repr

/-- Go `labels.Everything()`. -/
def Selector.everything : Selector := .internal []

/-- Go `(*Requirement).Matches`. -/
def Requirement.Matches (r : Requirement) (ls : LabelSet) : Bool :=
  match r.operator with
  | .In | .Equals => ls.Has r.key && r.strValues.contains (ls.Get r.key)
  | .NotIn => !ls.Has r.key || !r.strValues.contains (ls.Get r.key)
  | .Exists => ls.Has r.key
  | .DoesNotExist => !ls.Has r.key

/-- Go `Selector.Matches`: nothing matches `Nothing()`, an `internalSelector`
matches when each of its requirements does. -/
def Selector.Matches (sel : Selector) (ls : LabelSet) : Bool :=
  match sel with
  | .nothing => false
  | .internal reqs => reqs.all fun r => r.Matches ls

/-! ## Label validation (`k8s.io/apimachinery/pkg/util/validation`) -/

/-- The class `[-A-Za-z0-9_.]`. -/
def isQnameExtChar (c : Char) : Bool :=
  c.isAlphanum || c = '-' || c = '_' || c = '.'

/-- The regular expression `([A-Za-z0-9][-A-Za-z0-9_.]*)?[A-Za-z0-9]`, anchored. -/
def matchesQualifiedNameFmt (cs : List Char) : Bool :=
  match cs.head?, cs.getLast? with
  | some a, some b => a.isAlphanum && b.isAlphanum && cs.all isQnameExtChar
  | _, _ => false

/-- The regular expression `[a-z0-9]([-a-z0-9]*[a-z0-9])?`, anchored. -/
def matchesDNS1123Label (cs : List Char) : Bool :=
  match cs.head?, cs.getLast? with
  | some a, some b =>
    (a.isLower || a.isDigit) && (b.isLower || b.isDigit) &&
      cs.all fun c => c.isLower || c.isDigit || c = '-'
  | _, _ => false

/-- Go `validation.IsDNS1123Subdomain`, as a test. -/
def isDNS1123Subdomain (cs : List Char) : Bool :=
  decide (cs.length ≤ 253) && (splitOnChar '.' cs).all matchesDNS1123Label

/-- Go `validation.IsQualifiedName`, as a test: this is `validateLabelKey`. -/
def isQualifiedName (value : String) : Bool :=
  match splitOnChar '/' value.data with
  | [name] => decide (name.length ≤ 63) && matchesQualifiedNameFmt name
  | [pre, name] =>
    !pre.isEmpty && isDNS1123Subdomain pre &&
      decide (name.length ≤ 63) && matchesQualifiedNameFmt name
  | _ => false

/-- Go `validation.IsValidLabelValue`, as a test: this is `validateLabelValue`. -/
def isValidLabelValue (value : String) : Bool :=
  decide (value.data.length ≤ 63) &&
    (value.data.isEmpty || matchesQualifiedNameFmt value.data)

/-- Go `labels.NewRequirement` for the operators of `Operator`. -/
def NewRequirement (key : String) (op : Operator) (vals : List String) :
    Except String Requirement :=
  if !isQualifiedName key then .error "invalid label key"
  else if (match op with
      | .In | .NotIn => vals.length == 0
      | .Equals => vals.length != 1
      | .Exists | .DoesNotExist => vals.length != 0) then
    .error "invalid number of values for the operator"
  else if !vals.all isValidLabelValue then .error "invalid label value"
  else .ok ⟨key, op, vals⟩

/-! ## Label selectors (`k8s.io/apimachinery/pkg/apis/meta/v1`) -/

/-- Go `metav1.LabelSelectorRequirement`; the operator is the string of the
object. -/
structure LabelSelectorRequirement where
  Key : String
  Operator : String
  Values : List String
  deriving DecidableEq, Repr

/-- Go `metav1.LabelSelector`. -/
structure LabelSelector where
  MatchLabels : LabelSet
  MatchExpressions : List LabelSelectorRequirement
  deriving DecidableEq, Repr

/-- The loop of `LabelSelectorAsSelector` over `MatchLabels`. -/
def addMatchLabels (acc : List Requirement) : LabelSet → Except String (List Requirement)
  | [] => .ok acc
  | (k, v) :: rest =>
    match NewRequirement k .Equals [v] with
    | .error e => .error e
    | .ok r => addMatchLabels (acc ++ [r]) rest

/-- The loop of `LabelSelectorAsSelector` over `MatchExpressions`. -/
def addMatchExpressions (acc : List Requirement) :
    List LabelSelectorRequirement → Except String (List Requirement)
  | [] => .ok acc
  | expr :: rest =>
    match (if expr.Operator = "In" then some Operator.In
        else if expr.Operator = "NotIn" then some Operator.NotIn
        else if expr.Operator = "Exists" then some Operator.Exists
        else if expr.Operator = "DoesNotExist" then some Operator.DoesNotExist
        else none) with
    | none => .error "not a valid pod selector operator"
    | some op =>
      match NewRequirement expr.Key op expr.Values with
      | .error e => .error e
      | .ok r => addMatchExpressions (acc ++ [r]) rest

/-- Go `metav1.LabelSelectorAsSelector`: a nil selector selects nothing, an
empty one everything, and a requirement that does not validate is an error. -/
def LabelSelectorAsSelector (ps : Option LabelSelector) : Except String Selector :=
  match ps with
  | none => .ok .nothing
  | some ps =>
    if ps.MatchLabels.length + ps.MatchExpressions.length == 0 then
      .ok Selector.everything
    else
      match addMatchLabels [] ps.MatchLabels with
      | .error e => .error e
      | .ok reqs =>
        match addMatchExpressions reqs ps.MatchExpressions with
        | .error e => .error e
        | .ok reqs => .ok (.internal reqs)

/-! ## Objects of the cluster -/

/-- Go `corev1.Pod`, the fields the controller reads. -/
structure Pod where
  Name : String
  Namespace : String
  Labels : LabelSet
  Annotations : LabelSet
  HostNetwork : Bool
  PodIP : String
  deriving DecidableEq, Repr

/-- Go `corev1.Namespace`, the fields the controller reads. -/
structure Namespace where
  Name : String
  Labels : LabelSet
  deriving DecidableEq, Repr

/-- Go `netv1.IPBlock`. -/
structure IPBlock where
  CIDR : String
  Except : List String
  deriving DecidableEq, Repr

/-- Go `netv1.NetworkPolicyPeer`; the three fields are pointers. -/
structure NetworkPolicyPeer where
  PodSelector : Option LabelSelector
  NamespaceSelector : Option LabelSelector
  IPBlock : Option IPBlock
  deriving DecidableEq, Repr

/-- Go `netv1.NetworkPolicyPort`, carried to the backend unread. -/
structure NetworkPolicyPort where
  Protocol : Option String
  Port : Option String
  deriving DecidableEq, Repr

/-- Go `netv1.NetworkPolicyIngressRule`. -/
structure NetworkPolicyIngressRule where
  Ports : List NetworkPolicyPort
  From : List NetworkPolicyPeer
  deriving DecidableEq, Repr

/-- Go `netv1.NetworkPolicyEgressRule`. -/
structure NetworkPolicyEgressRule where
  Ports : List NetworkPolicyPort
  To : List NetworkPolicyPeer
  deriving DecidableEq, Repr

/-- Go `netv1.NetworkPolicy` with its `Spec` inlined. `Ingress` and `Egress`
are compared with `nil` by the code, hence options. -/
structure NetworkPolicy where
  Name : String
  Namespace : String
  PodSelector : LabelSelector
  Ingress : Option (List NetworkPolicyIngressRule)
  Egress : Option (List NetworkPolicyEgressRule)
  PolicyTypes : List String
  deriving DecidableEq, Repr

/-- A Go result that may also be a run-time panic. -/
inductive Outcome (α : Type) where
  | ok (val : α)
  | error (msg : String)
  | panic
  deriving DecidableEq, Repr

deriving instance DecidableEq for Except

/-! ## Selector matcher -/

/-- The Go idiom `sel, _ := metav1.LabelSelectorAsSelector(ps); sel.Matches(ls)`:
when the conversion fails `sel` is the nil interface and the call panics
(`none`). -/
def matchesIgnoringError (ps : Option LabelSelector) (ls : LabelSet) : Option Bool :=
  match LabelSelectorAsSelector ps with
  | .ok sel => some (sel.Matches ls)
  | .error _ => none

/-- Go `isPodMatchPolicyPeer`; `none` is a panic. -/
def isPodMatchPolicyPeer (pod : Pod) (podNs : Namespace) (policyPeer : NetworkPolicyPeer)
    (policyNs : String) : Option Bool :=
  if policyPeer.IPBlock.isSome then some false
  else
    let nsPart : Option Bool :=
      match policyPeer.NamespaceSelector with
      | none => some (policyNs == podNs.Name)
      | some nsSel => matchesIgnoringError (some nsSel) podNs.Labels
    match nsPart with
    | none => none
    | some false => some false
    | some true =>
      match policyPeer.PodSelector with
      | none => some true
      | some sel => matchesIgnoringError (some sel) pod.Labels

/-- The inner loops of `isPodMatchNetworkPolicy`: the first peer that matches
ends the search with true, a panic ends it with a panic. -/
def anyPeerMatches (pod : Pod) (podNs : Namespace) (policyNs : String) :
    List NetworkPolicyPeer → Option Bool
  | [] => some false
  | npp :: rest =>
    match isPodMatchPolicyPeer pod podNs npp policyNs with
    | none => none
    | some true => some true
    | some false => anyPeerMatches pod podNs policyNs rest

/-- The outer loops of `isPodMatchNetworkPolicy` over the rules, each rule
given by its list of peers. -/
def anyRuleMatches (pod : Pod) (podNs : Namespace) (policyNs : String) :
    List (List NetworkPolicyPeer) → Option Bool
  | [] => some false
  | peers :: rest =>
    match anyPeerMatches pod podNs policyNs peers with
    | none => none
    | some true => some true
    | some false => anyRuleMatches pod podNs policyNs rest

/-- Go `isPodMatchNetworkPolicy`; `none` is a panic. -/
def isPodMatchNetworkPolicy (pod : Pod) (podNs : Namespace) (policy : NetworkPolicy)
    (policyNs : String) : Option Bool :=
  match matchesIgnoringError (some policy.PodSelector) pod.Labels with
  | none => none
  | some true => some true
  | some false =>
    match anyRuleMatches pod podNs policyNs ((policy.Ingress.getD []).map (·.From)) with
    | none => none
    | some true => some true
    | some false =>
      anyRuleMatches pod podNs policyNs ((policy.Egress.getD []).map (·.To))

/-- Whether a selector converts to a label selector: it is well formed. -/
def converts (ps : LabelSelector) : Bool :=
  match LabelSelectorAsSelector (some ps) with
  | .ok _ => true
  | .error _ => false

/-- What the specification calls "the selector matches the labels": the
selector converts to a label selector and that selector matches. -/
def selectorMatches (ps : LabelSelector) (ls : LabelSet) : Bool :=
  match LabelSelectorAsSelector (some ps) with
  | .ok sel => sel.Matches ls
  | .error _ => false

/-! ## The read-model: listers of policies, namespaces and pods -/

/-- The result of `npsLister.NetworkPolicies(namespace).Get(name)`. -/
inductive GetResult where
  | found (np : NetworkPolicy)
  | notFound
  | failed (msg : String)
  deriving DecidableEq, Repr

/-- The calls the controller makes on `ovnClient`. -/
inductive OvnCall where
  | CreatePortGroup (pgName : String)
  | SetPortsToPortGroup (pgName : String) (ports : List String)
  | DeletePortGroup (pgName : String)
  | CreateAddressSet (name : String)
  | SetAddressesToAddressSet (addresses : List String) (name : String)
  | DeleteAddressSet (name : String)
  | CreateIngressACL (pgName asIngressName asExceptName : String)
      (npp : List NetworkPolicyPort)
  | CreateEgressACL (pgName asEgressName asExceptName : String)
      (npp : List NetworkPolicyPort)
  | DeleteACL (pgName direction : String)
  deriving DecidableEq, Repr

/-- Go `Controller`, the fields `network_policy.go` uses. The three listers
read a store of objects and may fail as the specification allows; `ovnFails`
tells which backend calls fail, and how. The order of `Namespaces` and `Pods`
is the order in which this controller's listings return the objects: the real
listers range over a Go map, so another run may list the same objects in
another order, which is a controller with the stores permuted. -/
structure Controller where
  Policies : List NetworkPolicy
  Namespaces : List Namespace
  Pods : List Pod
  getPolicyErr : Option String
  listNamespacesErr : Option String
  listPodsErr : String → Option String
  ovnFails : OvnCall → Option String

/-- Go `c.npsLister.NetworkPolicies(namespace).Get(name)`. -/
def Controller.npsListerGet (c : Controller) (namespace_ name : String) : GetResult :=
  match c.getPolicyErr with
  | some e => .failed e
  | none =>
    match c.Policies.find? fun np => np.Namespace == namespace_ && np.Name == name with
    | some np => .found np
    | none => .notFound

/-- Go `c.namespacesLister.List(sel)`. -/
def Controller.namespacesListerList (c : Controller) (sel : Selector) :
    Except String (List Namespace) :=
  match c.listNamespacesErr with
  | some e => .error e
  | none => .ok (c.Namespaces.filter fun ns => sel.Matches ns.Labels)

/-- The pods `c.podsLister.Pods(ns)` ranges over: those of namespace `ns`, all
pods when `ns` is `metav1.NamespaceAll`, the empty string. -/
def Controller.podsOfNamespace (c : Controller) (ns : String) : List Pod :=
  c.Pods.filter fun pod => ns == "" || pod.Namespace == ns

/-- Go `c.podsLister.Pods(ns).List(sel)`, where `sel` may be the nil interface
(`none`): the lister (`cache.ListAllByNamespace`) calls `sel.Matches` on each
pod of the namespace, which panics on a nil selector. -/
def Controller.podsListerList (c : Controller) (ns : String) (sel : Option Selector) :
    Outcome (List Pod) :=
  match c.listPodsErr ns with
  | some e => .error e
  | none =>
    match sel with
    | some sel => .ok ((c.podsOfNamespace ns).filter fun pod => sel.Matches pod.Labels)
    | none => if (c.podsOfNamespace ns).isEmpty then .ok [] else .panic

/-- Go `cache.SplitMetaNamespaceKey`. -/
def SplitMetaNamespaceKey (key : String) : Except String (String × String) :=
  match splitSlash key with
  | [name] => .ok ("", name)
  | [namespace_, name] => .ok (namespace_, name)
  | _ => .error "unexpected key format"

/-- Modelled from the spec: the constant IpAddressAnnotation of package `util`
(`pkg/util`, not under `src/`), the key of what the specification calls the
assigned-address annotation of a pod. No general theorem depends on its value. -/
def IpAddressAnnotation : String := "ovn.kubernetes.io/ip_address"

/-! ## Address resolver -/

/-- The loop of `fetchSelectedPorts` over the listed pods. -/
def appendPorts (ports : List String) : List Pod → List String
  | [] => ports
  | pod :: rest =>
    if !pod.HostNetwork then appendPorts (ports ++ [pod.Name ++ "." ++ pod.Namespace]) rest
    else appendPorts ports rest

/-- Go `(*Controller).fetchSelectedPorts`. -/
def Controller.fetchSelectedPorts (c : Controller) (namespace_ : String)
    (selector : Option LabelSelector) : Outcome (List String) :=
  match LabelSelectorAsSelector selector with
  | .error e => .error ("error createing label selector, " ++ e)
  | .ok sel =>
    match c.podsListerList namespace_ (some sel) with
    | .error e => .error ("failed to list pods, " ++ e)
    | .panic => .panic
    | .ok pods => .ok (appendPorts [] pods)

/-- Go `hasIngressRule`. -/
def hasIngressRule (np : NetworkPolicy) : Bool :=
  if np.PolicyTypes.any fun pt => stringsContains pt "Ingress" then true
  else if np.Ingress.isSome then true
  else false

/-- Go `hasEgressRule`. -/
def hasEgressRule (np : NetworkPolicy) : Bool :=
  if np.PolicyTypes.any fun pt => stringsContains pt "Egress" then true
  else if np.Egress.isSome then true
  else false

/-- The inner loop of `fetchPolicySelectedAddresses` over the pods of one
namespace. `strings.Split` never returns an empty slice, so index 0 exists. -/
def appendPodAddresses (selectedAddresses : List String) : List Pod → List String
  | [] => selectedAddresses
  | pod :: rest =>
    if pod.Annotations.Get IpAddressAnnotation != "" then
      appendPodAddresses
        (selectedAddresses ++ [(splitSlash (pod.Annotations.Get IpAddressAnnotation)).headD ""])
        rest
    else if pod.PodIP != "" then appendPodAddresses (selectedAddresses ++ [pod.PodIP]) rest
    else appendPodAddresses selectedAddresses rest

/-- The outer loop of `fetchPolicySelectedAddresses` over the selected
namespaces. -/
def Controller.appendNamespaceAddresses (c : Controller) (sel : Option Selector)
    (selectedAddresses : List String) : List String → Outcome (List String)
  | [] => .ok selectedAddresses
  | ns :: rest =>
    match c.podsListerList ns sel with
    | .error e => .error ("failed to list pod, " ++ e)
    | .panic => .panic
    | .ok pods => c.appendNamespaceAddresses sel (appendPodAddresses selectedAddresses pods) rest

/-- The first half of `fetchPolicySelectedAddresses`: the names of the
selected namespaces. -/
def Controller.selectedNamespaces (c : Controller) (namespace_ : String)
    (npp : NetworkPolicyPeer) : Except String (List String) :=
  match npp.NamespaceSelector with
  | none => .ok ([] ++ [namespace_])
  | some nsSel =>
    match LabelSelectorAsSelector (some nsSel) with
    | .error e => .error ("error createing label selector, " ++ e)
    | .ok sel =>
      match c.namespacesListerList sel with
      | .error e => .error ("failed to list ns, " ++ e)
      | .ok nss => .ok (nss.foldl (fun selectedNs ns => selectedNs ++ [ns.Name]) [])

/-- The selector `fetchPolicySelectedAddresses` lists pods with: everything
for an absent pod selector, otherwise the converted pod selector with the
conversion's error dropped, so the nil interface (`none`) when it fails. -/
def podSelectorIgnoringError (npp : NetworkPolicyPeer) : Option Selector :=
  match npp.PodSelector with
  | none => some Selector.everything
  | some ps =>
    match LabelSelectorAsSelector (some ps) with
    | .ok sel => some sel
    | .error _ => none

/-- Go `(*Controller).fetchPolicySelectedAddresses`: the allowed and the
excepted addresses of a peer. -/
def Controller.fetchPolicySelectedAddresses (c : Controller) (namespace_ : String)
    (npp : NetworkPolicyPeer) : Outcome (List String × List String) :=
  match npp.IPBlock with
  | some b => .ok ([b.CIDR], b.Except)
  | none =>
    match c.selectedNamespaces namespace_ npp with
    | .error e => .error e
    | .ok selectedNs =>
      match c.appendNamespaceAddresses (podSelectorIgnoringError npp) [] selectedNs with
      | .error e => .error e
      | .panic => .panic
      | .ok selectedAddresses => .ok (selectedAddresses, [])

/-- The inner loop of the address accumulation of `handleUpdateNp` over the
peers of one rule. -/
def Controller.appendPeerAddresses (c : Controller) (namespace_ : String) :
    List String × List String → List NetworkPolicyPeer → Outcome (List String × List String)
  | acc, [] => .ok acc
  | (allows, excepts), npp :: rest =>
    match c.fetchPolicySelectedAddresses namespace_ npp with
    | .error e => .error e
    | .panic => .panic
    | .ok (allow, except) =>
      c.appendPeerAddresses namespace_ (allows ++ allow, excepts ++ except) rest

/-- The outer loop of the address accumulation of `handleUpdateNp` over the
rules of one direction, each rule given by its peers. -/
def Controller.appendRuleAddresses (c : Controller) (namespace_ : String) :
    List String × List String → List (List NetworkPolicyPeer) →
      Outcome (List String × List String)
  | acc, [] => .ok acc
  | acc, peers :: rest =>
    match c.appendPeerAddresses namespace_ acc peers with
    | .error e => .error e
    | .panic => .panic
    | .ok acc => c.appendRuleAddresses namespace_ acc rest

/-! ## The OVN backend -/

/-- Modelled from the spec: a row of the backend's ACL table. The client
`pkg/ovs` is not under `src/`; the specification has one logical ACL per
direction and port group, referencing the allow and except address sets and
the direction's port restrictions, tagged "to-lport" for ingress and
"from-lport" for egress. -/
structure ACL where
  pgName : String
  direction : String
  allowAs : String
  exceptAs : String
  ports : List NetworkPolicyPort
  deriving DecidableEq, Repr

/-- Modelled from the spec: the backend's state, which `pkg/ovs` (not under
`src/`) keeps in the OVN north-bound database: the port groups with their
members, the address sets with their addresses, and the ACLs. A membership is
a set: the specification has it replaced as a whole and unchanged by a
duplicate insertion, and the controller hands it over in the order of a
listing, which is no property of the cluster. -/
structure OvnDB where
  portGroups : List (String × Finset String)
  addressSets : List (String × Finset String)
  acls : List ACL

instance : DecidableEq OvnDB := fun a b =>
  decidable_of_iff (a.portGroups = b.portGroups ∧ a.addressSets = b.addressSets ∧ a.acls = b.acls)
    (by cases a; cases b; simp)

/-- Modelled from the spec: "ensure the object exists", the create operations
of `pkg/ovs` on a table of named sets: a name already there is left as it is,
a new one starts empty. -/
def tableCreate (name : String) (t : List (String × Finset String)) :
    List (String × Finset String) :=
  if name ∈ t.map Prod.fst then t else t ++ [(name, ∅)]

/-- Modelled from the spec: "replace, not merge", the set-membership
operations of `pkg/ovs`: the named object's members become `members`. -/
def tableSet (name : String) (members : Finset String) (t : List (String × Finset String)) :
    List (String × Finset String) :=
  t.map fun row => if row.1 = name then (row.1, members) else row

/-- Modelled from the spec: the delete operations of `pkg/ovs`, which tolerate
an object that is already absent. -/
def tableDelete (name : String) (t : List (String × Finset String)) :
    List (String × Finset String) :=
  t.filter fun row => decide (row.1 ≠ name)

/-- Modelled from the spec: `DeleteACL(pgName, direction)` of `pkg/ovs` on the
ACL table. -/
def aclDelete (pgName direction : String) (t : List ACL) : List ACL :=
  t.filter fun a => decide (¬ (a.pgName = pgName ∧ a.direction = direction))

/-- Modelled from the spec: "create/replace the ACL" of `pkg/ovs`: the ACL of
the port group and direction is dropped and the new one added. -/
def aclReplace (a : ACL) (t : List ACL) : List ACL :=
  aclDelete a.pgName a.direction t ++ [a]

/-- Modelled from the spec: what a backend call that succeeds does to the
state (§6 of the specification; `pkg/ovs` is not under `src/`). -/
def OvnCall.apply (call : OvnCall) (db : OvnDB) : OvnDB :=
  match call with
  | .CreatePortGroup pg => { db with portGroups := tableCreate pg db.portGroups }
  | .SetPortsToPortGroup pg ports =>
    { db with portGroups := tableSet pg ports.toFinset db.portGroups }
  | .DeletePortGroup pg => { db with portGroups := tableDelete pg db.portGroups }
  | .CreateAddressSet n => { db with addressSets := tableCreate n db.addressSets }
  | .SetAddressesToAddressSet addrs n =>
    { db with addressSets := tableSet n addrs.toFinset db.addressSets }
  | .DeleteAddressSet n => { db with addressSets := tableDelete n db.addressSets }
  | .CreateIngressACL pg allow except ports =>
    { db with acls := aclReplace ⟨pg, "to-lport", allow, except, ports⟩ db.acls }
  | .CreateEgressACL pg allow except ports =>
    { db with acls := aclReplace ⟨pg, "from-lport", allow, except, ports⟩ db.acls }
  | .DeleteACL pg direction => { db with acls := aclDelete pg direction db.acls }

/-- The backend as the controller sees it: its state and the calls attempted
on it so far, oldest first. -/
structure Ovn where
  db : OvnDB
  trace : List OvnCall

instance : DecidableEq Ovn := fun a b =>
  decidable_of_iff (a.db = b.db ∧ a.trace = b.trace) (by cases a; cases b; simp)

/-- A computation of the controller on the backend: a result or an error or a
panic, and the backend it leaves. -/
def OvnM (α : Type) : Type := Ovn → Outcome α × Ovn

/-- Sequencing in `OvnM`: an error or a panic ends the computation, as Go's
`return err` does, and keeps the backend reached. -/
def OvnM.bind {α β : Type} (m : OvnM α) (f : α → OvnM β) : OvnM β := fun s =>
  match m s with
  | (.ok a, s1) => f a s1
  | (.error e, s1) => (.error e, s1)
  | (.panic, s1) => (.panic, s1)

instance : Monad OvnM where
  pure a := fun s => (.ok a, s)
  bind := OvnM.bind

/-- A computation that reads only the cluster, run in `OvnM`. -/
def OvnM.lift {α : Type} (o : Outcome α) : OvnM α := fun s => (o, s)

/-- Go `if err := m; err != nil { klog.Errorf(...) }` with no return: the
error is logged and dropped. -/
def OvnM.logOnly (m : OvnM Unit) : OvnM Unit := fun s => (.ok (), (m s).2)

/-- Modelled from the spec: a call on `ovnClient`, whose code is not under
`src/`. The call is recorded; it fails with a backend error when `ovnFails`
says so, leaving the state as it was, and otherwise acts by `OvnCall.apply`. -/
def Controller.ovnClient (c : Controller) (call : OvnCall) : OvnM Unit := fun s =>
  match c.ovnFails call with
  | some e => (.error e, { s with trace := s.trace ++ [call] })
  | none => (.ok (), { db := call.apply s.db, trace := s.trace ++ [call] })

/-! ## Policy translator -/

/-- Go `fmt.Sprintf("%s.%s", name, namespace)`, the `pgName` of lines 167 and
319: the hyphens stay. -/
def pgName (name namespace_ : String) : String :=
  name ++ "." ++ namespace_

/-- The `ingressAllowAsName` of lines 172 and 320. -/
def ingressAllowAsName (name namespace_ : String) : String :=
  replaceHyphens (name ++ "." ++ namespace_ ++ ".ingress.allow")

/-- The `ingressExceptAsName` of lines 173 and 321. -/
def ingressExceptAsName (name namespace_ : String) : String :=
  replaceHyphens (name ++ "." ++ namespace_ ++ ".ingress.except")

/-- The `egressAllowAsName` of lines 174 and 322. -/
def egressAllowAsName (name namespace_ : String) : String :=
  replaceHyphens (name ++ "." ++ namespace_ ++ ".egress.allow")

/-- The `egressExceptAsName` of lines 175 and 323. -/
def egressExceptAsName (name namespace_ : String) : String :=
  replaceHyphens (name ++ "." ++ namespace_ ++ ".egress.except")

/-- Lines 194 to 250 of `handleUpdateNp`: the ingress branch. -/
def Controller.reconcileIngress (c : Controller) (np : NetworkPolicy)
    (pgName ingressAllowAsName ingressExceptAsName : String)
    (ingressPorts : List NetworkPolicyPort) : OvnM Unit :=
  if hasIngressRule np then do
    c.ovnClient (.CreateAddressSet ingressAllowAsName)
    c.ovnClient (.CreateAddressSet ingressExceptAsName)
    let (allows, excepts) ← OvnM.lift
      (c.appendRuleAddresses np.Namespace ([], []) ((np.Ingress.getD []).map (·.From)))
    c.ovnClient (.SetAddressesToAddressSet allows ingressAllowAsName)
    c.ovnClient (.SetAddressesToAddressSet excepts ingressExceptAsName)
    c.ovnClient (.CreateIngressACL pgName ingressAllowAsName ingressExceptAsName ingressPorts)
  else do
    c.ovnClient (.DeleteACL pgName "to-lport")
    c.ovnClient (.DeleteAddressSet ingressAllowAsName)
    c.ovnClient (.DeleteAddressSet ingressExceptAsName)

/-- Lines 252 to 308 of `handleUpdateNp`: the egress branch. -/
def Controller.reconcileEgress (c : Controller) (np : NetworkPolicy)
    (pgName egressAllowAsName egressExceptAsName : String)
    (egressPorts : List NetworkPolicyPort) : OvnM Unit :=
  if hasEgressRule np then do
    c.ovnClient (.CreateAddressSet egressAllowAsName)
    c.ovnClient (.CreateAddressSet egressExceptAsName)
    let (allows, excepts) ← OvnM.lift
      (c.appendRuleAddresses np.Namespace ([], []) ((np.Egress.getD []).map (·.To)))
    c.ovnClient (.SetAddressesToAddressSet allows egressAllowAsName)
    c.ovnClient (.SetAddressesToAddressSet excepts egressExceptAsName)
    c.ovnClient (.CreateEgressACL pgName egressAllowAsName egressExceptAsName egressPorts)
  else do
    c.ovnClient (.DeleteACL pgName "from-lport")
    c.ovnClient (.DeleteAddressSet egressAllowAsName)
    c.ovnClient (.DeleteAddressSet egressExceptAsName)

/-- Lines 158 to 309 of `handleUpdateNp`: the translation of a policy that was
found. -/
def Controller.reconcilePolicy (c : Controller) (np : NetworkPolicy) : OvnM Unit := do
  let ingressPorts := (np.Ingress.getD []).foldl (fun ports npr => ports ++ npr.Ports) []
  let egressPorts := (np.Egress.getD []).foldl (fun ports npr => ports ++ npr.Ports) []
  c.ovnClient (.CreatePortGroup (pgName np.Name np.Namespace))
  let ports ← OvnM.lift (c.fetchSelectedPorts np.Namespace (some np.PodSelector))
  c.ovnClient (.SetPortsToPortGroup (pgName np.Name np.Namespace) ports)
  c.reconcileIngress np (pgName np.Name np.Namespace)
    (ingressAllowAsName np.Name np.Namespace) (ingressExceptAsName np.Name np.Namespace)
    ingressPorts
  c.reconcileEgress np (pgName np.Name np.Namespace)
    (egressAllowAsName np.Name np.Namespace) (egressExceptAsName np.Name np.Namespace)
    egressPorts

/-- Go `(*Controller).handleUpdateNp`. -/
def Controller.handleUpdateNp (c : Controller) (key : String) : OvnM Unit :=
  match SplitMetaNamespaceKey key with
  | .error _ => pure ()
  | .ok (namespace_, name) =>
    match c.npsListerGet namespace_ name with
    | .notFound => pure ()
    | .failed e => OvnM.lift (.error e)
    | .found np => c.reconcilePolicy np

/-- Go `(*Controller).handleDeleteNp`. -/
def Controller.handleDeleteNp (c : Controller) (key : String) : OvnM Unit :=
  match SplitMetaNamespaceKey key with
  | .error _ => pure ()
  | .ok (namespace_, name) => do
    c.ovnClient (.DeleteACL (pgName name namespace_) "to-lport")
    c.ovnClient (.DeleteACL (pgName name namespace_) "from-lport")
    c.ovnClient (.DeleteAddressSet (ingressAllowAsName name namespace_))
    c.ovnClient (.DeleteAddressSet (ingressExceptAsName name namespace_))
    c.ovnClient (.DeleteAddressSet (egressAllowAsName name namespace_))
    c.ovnClient (.DeleteAddressSet (egressExceptAsName name namespace_))
    OvnM.logOnly (c.ovnClient (.DeletePortGroup (pgName name namespace_)))
    return ()

/-! ## The specification's words, and the inputs of the examples -/

/-- The address the specification derives for a matched workload: the
assigned-address annotation with everything from the first "/" on removed when
that annotation is non-empty, otherwise the runtime-observed pod IP when it is
non-empty, otherwise none. -/
def podAddress (pod : Pod) : Option String :=
  if pod.Annotations.Get IpAddressAnnotation ≠ "" then
    some ⟨(pod.Annotations.Get IpAddressAnnotation).data.takeWhile fun ch => decide (ch ≠ '/')⟩
  else if pod.PodIP ≠ "" then some pod.PodIP
  else none

/-- The candidate namespaces of a selector peer in the specification's words:
the policy's namespace when the namespace selector is absent, otherwise the
names of the namespaces whose labels satisfy it, in listing order. -/
def Controller.candidateNamespaces (c : Controller) (namespace_ : String)
    (npp : NetworkPolicyPeer) : List String :=
  match npp.NamespaceSelector with
  | none => [namespace_]
  | some nsSel => (c.Namespaces.filter fun ns => selectorMatches nsSel ns.Labels).map (·.Name)

/-- Whether the peer's workload selector takes a pod, in the specification's
words: the selector is absent or matches the pod's labels. -/
def workloadSelected (npp : NetworkPolicyPeer) (pod : Pod) : Bool :=
  match npp.PodSelector with
  | none => true
  | some ps => selectorMatches ps pod.Labels

/-- The matched workloads of a candidate namespace in the specification's
words: its pods that the workload selector takes, in listing order. -/
def Controller.matchedPods (c : Controller) (npp : NetworkPolicyPeer) (ns : String) :
    List Pod :=
  (c.podsOfNamespace ns).filter (workloadSelected npp)

/-- The allowed list of a selector peer in the specification's words: one
address per matched workload that has one, in listing order over the candidate
namespaces and their matched workloads. -/
def Controller.resolvedAddresses (c : Controller) (namespace_ : String)
    (npp : NetworkPolicyPeer) : List String :=
  ((c.candidateNamespaces namespace_ npp).flatMap (c.matchedPods npp)).filterMap podAddress

/-- A selector that does not convert: "bad value" is no label value. -/
def malformedSelector : LabelSelector :=
  ⟨[], [⟨"app", "In", ["bad value"]⟩]⟩

/-- The empty selector `{}`, which selects everything. -/
def selectAll : LabelSelector := ⟨[], []⟩

/-- A pod of namespace `default` with an address. -/
def webPod : Pod :=
  ⟨"web", "default", [("app", "web")], [], false, "10.0.0.9"⟩

/-- The namespace `default`. -/
def defaultNs : Namespace := ⟨"default", [("team", "a")]⟩

/-- A policy whose target selector is malformed and whose one ingress peer
matches every pod. -/
def malformedTargetPolicy : NetworkPolicy :=
  { Name := "np", Namespace := "default", PodSelector := malformedSelector,
    Ingress := some [⟨[], [⟨none, some selectAll, none⟩]⟩], Egress := none,
    PolicyTypes := [] }

/-- A read-model whose every listing fails, over a backend that never fails. -/
def failingListers : Controller :=
  { Policies := [], Namespaces := [], Pods := [], getPolicyErr := some "store down",
    listNamespacesErr := some "store down", listPodsErr := fun _ => some "store down",
    ovnFails := fun _ => none }

/-- The CIDR peer of the specification's example. -/
def cidrPeer : NetworkPolicyPeer :=
  ⟨none, none, some ⟨"10.0.0.0/24", ["10.0.0.5/32"]⟩⟩

/-- A peer whose pod selector is malformed and whose namespace selector is well
formed. -/
def malformedPodPeer : NetworkPolicyPeer :=
  ⟨some malformedSelector, some ⟨[("team", "b")], []⟩, none⟩

/-- A peer whose namespace selector is malformed. -/
def malformedNsPeer : NetworkPolicyPeer :=
  ⟨none, some malformedSelector, none⟩

/-- A policy of namespace `default` with `malformedPodPeer` as its one ingress
peer. -/
def malformedPeerPolicy : NetworkPolicy :=
  { Name := "np", Namespace := "default", PodSelector := selectAll,
    Ingress := some [⟨[], [malformedPodPeer]⟩], Egress := none, PolicyTypes := ["Ingress"] }

/-- A cluster with the namespace `default`, the pod `webPod` and the policy
`malformedPeerPolicy`, whose listings succeed, over a backend that never fails. -/
def smallCluster : Controller :=
  { Policies := [malformedPeerPolicy], Namespaces := [defaultNs], Pods := [webPod],
    getPolicyErr := none, listNamespacesErr := none, listPodsErr := fun _ => none,
    ovnFails := fun _ => none }

/-- The backend with nothing in it and no call made. -/
def emptyOvn : Ovn := ⟨⟨[], [], []⟩, []⟩

/-- A cluster of three pods labelled `app: web` in namespace `default`: one with
an annotated address in CIDR form, one with only a pod IP, one with neither. -/
def threePods : Controller :=
  { Policies := [], Namespaces := [defaultNs],
    Pods := [⟨"a", "default", [("app", "web")], [( IpAddressAnnotation, "10.16.0.4/16")], false,
        "10.16.0.4"⟩,
      webPod,
      ⟨"c", "default", [("app", "web")], [], false, ""⟩],
    getPolicyErr := none, listNamespacesErr := none, listPodsErr := fun _ => none,
    ovnFails := fun _ => none }

/-- A cluster holding the two policies `test-np` and `test.np` of namespace
`default`, over a backend that never fails. -/
def twoPolicies : Controller :=
  { Policies := [
      { Name := "test-np", Namespace := "default", PodSelector := selectAll,
        Ingress := none, Egress := none, PolicyTypes := [] },
      { Name := "test.np", Namespace := "default", PodSelector := selectAll,
        Ingress := none, Egress := none, PolicyTypes := [] }],
    Namespaces := [defaultNs], Pods := [], getPolicyErr := none, listNamespacesErr := none,
    listPodsErr := fun _ => none, ovnFails := fun _ => none }

/-- The six deletions `handleDeleteNp` makes before the port group's, in the
order of lines 325 to 353. -/
def deletionsBeforePortGroup (name namespace_ : String) : List OvnCall :=
  [.DeleteACL (pgName name namespace_) "to-lport",
   .DeleteACL (pgName name namespace_) "from-lport",
   .DeleteAddressSet (ingressAllowAsName name namespace_),
   .DeleteAddressSet (ingressExceptAsName name namespace_),
   .DeleteAddressSet (egressAllowAsName name namespace_),
   .DeleteAddressSet (egressExceptAsName name namespace_)]

/-- The calls attempted when calls are made in order and the first failure
ends the run, with that failure. -/
def attemptedUntilFailure (fails : OvnCall → Option String) :
    List OvnCall → List OvnCall × Option String
  | [] => ([], none)
  | call :: rest =>
    match fails call with
    | some e => ([call], some e)
    | none => (call :: (attemptedUntilFailure fails rest).1, (attemptedUntilFailure fails rest).2)

/-- A controller whose backend fails the deletion of the ingress ACL of
`np.default` and no other call. -/
def failingFirstDelete : Controller :=
  { Policies := [], Namespaces := [], Pods := [], getPolicyErr := none,
    listNamespacesErr := none, listPodsErr := fun _ => none,
    ovnFails := fun call =>
      if call = .DeleteACL "np.default" "to-lport" then some "backend down" else none }

/-- The pod selector `app: frontend`. -/
def frontendSelector : LabelSelector := ⟨[("app", "frontend")], []⟩

/-- The policy `allow-frontend` of namespace `shop` of the specification's
end-to-end scenario: one ingress rule whose only peer is the pod selector
`app: frontend`, no egress rule; its target selector, its policy types and the
rule's ports are those given. -/
def allowFrontend (target : LabelSelector) (policyTypes : List String)
    (ports : List NetworkPolicyPort) : NetworkPolicy :=
  { Name := "allow-frontend", Namespace := "shop", PodSelector := target,
    Ingress := some [⟨ports, [⟨some frontendSelector, none, none⟩]⟩], Egress := none,
    PolicyTypes := policyTypes }

/-- The scenario's policy with the empty target selector, `PolicyTypes` equal
to `[Ingress]` and no port restriction. -/
def allowFrontendPlain : NetworkPolicy := allowFrontend selectAll ["Ingress"] []

/-- The workload `web-1` of the scenario: in `shop`, labelled `app: frontend`,
with the assigned address 10.1.2.3. -/
def web1 : Pod :=
  ⟨"web-1", "shop", [("app", "frontend")], [( IpAddressAnnotation, "10.1.2.3")], false, "10.1.2.3"⟩

/-- A host-network workload `web-2` in `shop` with the given labels,
annotations and pod IP. -/
def web2 (labels annotations : LabelSet) (podIP : String) : Pod :=
  ⟨"web-2", "shop", labels, annotations, true, podIP⟩

/-- The cluster of the scenario: the policy, `web-1` and a host-network
`web-2`, with listings and backend calls that succeed. -/
def shopCluster (np : NetworkPolicy) (labels annotations : LabelSet) (podIP : String) :
    Controller :=
  { Policies := [np], Namespaces := [⟨"shop", []⟩],
    Pods := [web1, web2 labels annotations podIP],
    getPolicyErr := none, listNamespacesErr := none, listPodsErr := fun _ => none,
    ovnFails := fun _ => none }

/-- A backend left by an earlier rule set of `allow-frontend` that had egress:
it holds the policy's egress ACL and both egress address sets. -/
def staleEgress : Ovn :=
  ⟨⟨[("allow-frontend.shop", {"web-1.shop"})],
    [("allow.frontend.shop.egress.allow", {"10.9.9.9"}),
      ("allow.frontend.shop.egress.except", ∅)],
    [⟨"allow-frontend.shop", "from-lport", "allow.frontend.shop.egress.allow",
      "allow.frontend.shop.egress.except", []⟩]⟩, []⟩

/-- A policy whose target selector converts and does not take `webPod`, and
whose first ingress peer has a malformed pod selector while its second matches
every pod. -/
def malformedFirstPeerPolicy : NetworkPolicy :=
  { Name := "np", Namespace := "default", PodSelector := ⟨[("app", "db")], []⟩,
    Ingress := some [⟨[], [⟨some malformedSelector, none, none⟩, ⟨none, some selectAll, none⟩]⟩],
    Egress := none, PolicyTypes := [] }

/-- Both selectors of a peer, where present, convert. -/
def peerConverts (npp : NetworkPolicyPeer) : Bool :=
  npp.NamespaceSelector.all converts && npp.PodSelector.all converts

/-- The scenario's policy with `PolicyTypes` equal to `[Ingress]` and an
`Egress` list that is empty but not nil. -/
def emptyEgressPolicy : NetworkPolicy :=
  { allowFrontendPlain with Egress := some [] }

/-- The table has a row named `name`. -/
def HasKey (name : String) (t : List (String × Finset String)) : Prop :=
  name ∈ t.map Prod.fst

/-- Every row of the table named `name` holds the set `members`. -/
def HasValue (name : String) (members : Finset String) (t : List (String × Finset String)) :
    Prop :=
  ∀ row ∈ t, row.1 = name → row.2 = members

/-- The members a listing hands to the backend, as a set; none when the listing
failed. -/
def memberSet (o : Outcome (List String)) : Option (Finset String) :=
  match o with
  | .ok members => some members.toFinset
  | _ => none

/-- The allowed and excepted addresses a resolution hands to the backend, as
sets; none when the resolution failed. -/
def resolvedSets (o : Outcome (List String × List String)) :
    Option (Finset String × Finset String) :=
  match o with
  | .ok (allows, excepts) => some (allows.toFinset, excepts.toFinset)
  | _ => none

/-- The result of a direction's branch of `handleUpdateNp` on a backend that
never fails, from whether the direction is active and the result of its address
resolution. -/
def branchOutcome (active : Bool) (r : Outcome (List String × List String)) : Outcome Unit :=
  if active then
    match r with
    | .ok _ => .ok ()
    | .error e => .error e
    | .panic => .panic
  else .ok ()

/-- Whether a direction's branch of `handleUpdateNp` ends the run on a backend
that never fails: the direction is active and its address resolution failed. -/
def branchAborts (active : Bool) (r : Option (Finset String × Finset String)) : Bool :=
  active && r.isNone

/-- What a direction's branch of `handleUpdateNp` does to the backend's state
when no call fails: `direction` is "to-lport" for ingress and "from-lport" for
egress, `allowAs` and `exceptAs` the direction's two address sets. -/
def branchEffect (active : Bool) (r : Option (Finset String × Finset String))
    (pg direction allowAs exceptAs : String) (ports : List NetworkPolicyPort) (db : OvnDB) :
    OvnDB :=
  if active then
    match r with
    | some (allows, excepts) =>
      { db with
        addressSets := tableSet exceptAs excepts (tableSet allowAs allows
          (tableCreate exceptAs (tableCreate allowAs db.addressSets))),
        acls := aclReplace ⟨pg, direction, allowAs, exceptAs, ports⟩ db.acls }
    | none => { db with addressSets := tableCreate exceptAs (tableCreate allowAs db.addressSets) }
  else
    { db with
      addressSets := tableDelete exceptAs (tableDelete allowAs db.addressSets),
      acls := aclDelete pg direction db.acls }

/-- What `handleUpdateNp` does to the backend's state for a policy that was
found, when no call fails, from what its three reads of the cluster hand to the
backend. -/
def reconcileEffect (selected : Option (Finset String)) (ingress egress : Bool)
    (ri re : Option (Finset String × Finset String)) (pg dirIn dirOut ia ie ea ee : String)
    (ingressPorts egressPorts : List NetworkPolicyPort) (db : OvnDB) : OvnDB :=
  match selected with
  | some ports =>
    if branchAborts ingress ri then
      branchEffect ingress ri pg dirIn ia ie ingressPorts
        { db with portGroups := tableSet pg ports (tableCreate pg db.portGroups) }
    else
      branchEffect egress re pg dirOut ea ee egressPorts
        (branchEffect ingress ri pg dirIn ia ie ingressPorts
          { db with portGroups := tableSet pg ports (tableCreate pg db.portGroups) })
  | none => { db with portGroups := tableCreate pg db.portGroups }

/-- The result of `handleUpdateNp` for a policy that was found, when no backend
call fails. -/
def Controller.policyOutcome (c : Controller) (np : NetworkPolicy) : Outcome Unit :=
  match c.fetchSelectedPorts np.Namespace (some np.PodSelector) with
  | .ok _ =>
    match branchOutcome (hasIngressRule np)
      (c.appendRuleAddresses np.Namespace ([], []) ((np.Ingress.getD []).map (·.From))) with
    | .ok _ =>
      branchOutcome (hasEgressRule np)
        (c.appendRuleAddresses np.Namespace ([], []) ((np.Egress.getD []).map (·.To)))
    | .error e => .error e
    | .panic => .panic
  | .error e => .error e
  | .panic => .panic

/-- What `handleUpdateNp` does to the backend's state for a policy that was
found, when no backend call fails. -/
def Controller.policyEffect (c : Controller) (np : NetworkPolicy) (db : OvnDB) : OvnDB :=
  reconcileEffect (memberSet (c.fetchSelectedPorts np.Namespace (some np.PodSelector)))
    (hasIngressRule np) (hasEgressRule np)
    (resolvedSets
      (c.appendRuleAddresses np.Namespace ([], []) ((np.Ingress.getD []).map (·.From))))
    (resolvedSets
      (c.appendRuleAddresses np.Namespace ([], []) ((np.Egress.getD []).map (·.To))))
    (pgName np.Name np.Namespace) "to-lport" "from-lport"
    (ingressAllowAsName np.Name np.Namespace) (ingressExceptAsName np.Name np.Namespace)
    (egressAllowAsName np.Name np.Namespace) (egressExceptAsName np.Name np.Namespace)
    ((np.Ingress.getD []).foldl (fun ports npr => ports ++ npr.Ports) [])
    ((np.Egress.getD []).foldl (fun ports npr => ports ++ npr.Ports) []) db

/-- The controller `c` on a run whose listings return the namespaces and the
pods of the cluster in another order. -/
def Controller.relisted (c : Controller) (namespaces : List Namespace) (pods : List Pod) :
    Controller :=
  { c with Namespaces := namespaces, Pods := pods }

/-- The addresses the pods of one namespace contribute to a resolution, as a
set; none when the listing of the namespace fails or panics. -/
def Controller.nsAddressSet (c : Controller) (sel : Option Selector) (ns : String) :
    Option (Finset String) :=
  match c.podsListerList ns sel with
  | .ok pods => some (pods.filterMap podAddress).toFinset
  | _ => none

/-! ## Theorems -/

theorem matchesIgnoringError_eq_some_true (ps : LabelSelector) (ls : LabelSet) :
    matchesIgnoringError (some ps) ls = some true ↔ selectorMatches ps ls = true := by
  unfold matchesIgnoringError selectorMatches
  cases h : LabelSelectorAsSelector (some ps) with
  | error e => simp
  | ok sel => simp

theorem isPodMatchPolicyPeer_true_iff (pod : Pod) (podNs : Namespace)
    (policyPeer : NetworkPolicyPeer) (policyNs : String) :
    isPodMatchPolicyPeer pod podNs policyPeer policyNs = some true ↔
      (policyPeer.IPBlock = none ∧
        (match policyPeer.NamespaceSelector with
          | none => policyNs = podNs.Name
          | some nsSel => selectorMatches nsSel podNs.Labels = true) ∧
        (match policyPeer.PodSelector with
          | none => True
          | some sel => selectorMatches sel pod.Labels = true)) := by
  obtain ⟨ps, nss, ipb⟩ := policyPeer
  cases ipb with
  | some b => simp [isPodMatchPolicyPeer]
  | none =>
    cases nss with
    | none =>
      by_cases hns : policyNs = podNs.Name
      · cases ps with
        | none => simp [isPodMatchPolicyPeer, hns]
        | some sel => simp [isPodMatchPolicyPeer, hns, matchesIgnoringError_eq_some_true]
      · have hb : (policyNs == podNs.Name) = false := by simpa using hns
        simp [isPodMatchPolicyPeer, hns, hb]
    | some nsSel =>
      cases hm : matchesIgnoringError (some nsSel) podNs.Labels with
      | none =>
        have : ¬ selectorMatches nsSel podNs.Labels = true := by
          rw [← matchesIgnoringError_eq_some_true, hm]; simp
        simp [isPodMatchPolicyPeer, hm, this]
      | some b =>
        cases b with
        | false =>
          have : ¬ selectorMatches nsSel podNs.Labels = true := by
            rw [← matchesIgnoringError_eq_some_true, hm]; simp
          simp [isPodMatchPolicyPeer, hm, this]
        | true =>
          have : selectorMatches nsSel podNs.Labels = true := by
            rw [← matchesIgnoringError_eq_some_true, hm]
          cases ps with
          | none => simp [isPodMatchPolicyPeer, hm, this]
          | some sel => simp [isPodMatchPolicyPeer, hm, this, matchesIgnoringError_eq_some_true]

/-- C1: `isPodMatchPolicyPeer` returns true exactly when the peer is not a CIDR
block, its namespace part holds (policy namespace equal to the pod's namespace
when the namespace selector is absent, the namespace selector matching the
namespace's labels otherwise) and its pod selector is absent or matches the
pod's labels. In particular a CIDR peer returns false, a peer with only a pod
selector matches exactly the pods of the policy's namespace whose labels
satisfy it, and the empty namespace selector with no pod selector matches every
pod of every namespace. -/
theorem isPodMatchPolicyPeer_spec :
    (∀ (pod : Pod) (podNs : Namespace) (policyPeer : NetworkPolicyPeer) (policyNs : String),
      isPodMatchPolicyPeer pod podNs policyPeer policyNs = some true ↔
        (policyPeer.IPBlock = none ∧
          (match policyPeer.NamespaceSelector with
            | none => policyNs = podNs.Name
            | some nsSel => selectorMatches nsSel podNs.Labels = true) ∧
          (match policyPeer.PodSelector with
            | none => True
            | some sel => selectorMatches sel pod.Labels = true))) ∧
    (∀ (pod : Pod) (podNs : Namespace) (ps nss : Option LabelSelector) (b : IPBlock)
        (policyNs : String),
      isPodMatchPolicyPeer pod podNs ⟨ps, nss, some b⟩ policyNs = some false) ∧
    (∀ (pod : Pod) (podNs : Namespace) (sel : LabelSelector) (policyNs : String),
      isPodMatchPolicyPeer pod podNs ⟨some sel, none, none⟩ policyNs = some true ↔
        (policyNs = podNs.Name ∧ selectorMatches sel pod.Labels = true)) ∧
    (∀ (pod : Pod) (podNs : Namespace) (policyNs : String),
      isPodMatchPolicyPeer pod podNs ⟨none, some ⟨[], []⟩, none⟩ policyNs = some true) := by
  refine ⟨isPodMatchPolicyPeer_true_iff, ?_, ?_, ?_⟩
  · intro pod podNs ps nss b policyNs
    simp [isPodMatchPolicyPeer]
  · intro pod podNs sel policyNs
    simpa using isPodMatchPolicyPeer_true_iff pod podNs ⟨some sel, none, none⟩ policyNs
  · intro pod podNs policyNs
    rw [isPodMatchPolicyPeer_true_iff]
    refine ⟨rfl, ?_, trivial⟩
    show selectorMatches ⟨[], []⟩ podNs.Labels = true
    simp [selectorMatches, LabelSelectorAsSelector, Selector.everything, Selector.Matches]

theorem matchesIgnoringError_of_converts (ps : LabelSelector) (ls : LabelSet)
    (h : converts ps = true) : matchesIgnoringError (some ps) ls = some (selectorMatches ps ls) := by
  unfold converts at h
  unfold matchesIgnoringError selectorMatches
  cases hc : LabelSelectorAsSelector (some ps) with
  | error e => simp [hc] at h
  | ok sel => rfl

theorem isPodMatchPolicyPeer_of_converts (pod : Pod) (podNs : Namespace)
    (npp : NetworkPolicyPeer) (policyNs : String) (h : peerConverts npp = true) :
    ∃ b, isPodMatchPolicyPeer pod podNs npp policyNs = some b := by
  obtain ⟨ps, nss, ipb⟩ := npp
  simp only [peerConverts, Bool.and_eq_true] at h
  obtain ⟨hn, hp⟩ := h
  cases ipb with
  | some b => exact ⟨false, by simp [isPodMatchPolicyPeer]⟩
  | none =>
    have hpod : ∃ b, (match ps with
        | none => some true
        | some sel => matchesIgnoringError (some sel) pod.Labels) = some b := by
      cases ps with
      | none => exact ⟨true, rfl⟩
      | some sel =>
        exact ⟨_, matchesIgnoringError_of_converts sel pod.Labels (by simpa using hp)⟩
    obtain ⟨bp, hbp⟩ := hpod
    cases nss with
    | none =>
      cases hb : (policyNs == podNs.Name)
      · exact ⟨false, by simp [isPodMatchPolicyPeer, hb]⟩
      · exact ⟨bp, by simp [isPodMatchPolicyPeer, hb, hbp]⟩
    | some nsSel =>
      have hm := matchesIgnoringError_of_converts nsSel podNs.Labels (by simpa using hn)
      cases hb : selectorMatches nsSel podNs.Labels
      · exact ⟨false, by simp [isPodMatchPolicyPeer, hm, hb]⟩
      · exact ⟨bp, by simp [isPodMatchPolicyPeer, hm, hb, hbp]⟩

theorem anyPeerMatches_of_converts (pod : Pod) (podNs : Namespace) (policyNs : String)
    (peers : List NetworkPolicyPeer) (h : peers.all peerConverts = true) :
    anyPeerMatches pod podNs policyNs peers =
      some (peers.any fun npp => isPodMatchPolicyPeer pod podNs npp policyNs == some true) := by
  induction peers with
  | nil => rfl
  | cons npp rest ih =>
    simp only [List.all_cons, Bool.and_eq_true] at h
    obtain ⟨b, hb⟩ := isPodMatchPolicyPeer_of_converts pod podNs npp policyNs h.1
    cases b with
    | true => simp [anyPeerMatches, hb]
    | false => simp [anyPeerMatches, hb, ih h.2]

theorem anyRuleMatches_of_converts (pod : Pod) (podNs : Namespace) (policyNs : String)
    (rules : List (List NetworkPolicyPeer))
    (h : (rules.all fun peers => peers.all peerConverts) = true) :
    anyRuleMatches pod podNs policyNs rules =
      some (rules.any fun peers => peers.any fun npp =>
        isPodMatchPolicyPeer pod podNs npp policyNs == some true) := by
  induction rules with
  | nil => rfl
  | cons peers rest ih =>
    simp only [List.all_cons, Bool.and_eq_true] at h
    have hp := anyPeerMatches_of_converts pod podNs policyNs peers h.1
    cases hb : (peers.any fun npp => isPodMatchPolicyPeer pod podNs npp policyNs == some true)
    · rw [hb] at hp
      simp [anyRuleMatches, hp, ih h.2, hb]
    · rw [hb] at hp
      simp [anyRuleMatches, hp, hb]

theorem any_map_eq {α β : Type} (l : List α) (f : α → β) (p : β → Bool) :
    (l.map f).any p = l.any fun x => p (f x) := by
  induction l with
  | nil => rfl
  | cons x rest ih => simp only [List.map_cons, List.any_cons, ih]

/-- What C10 states holds on the policies whose selectors all convert: there
`isPodMatchNetworkPolicy` returns, and returns true exactly when the target
selector matches the pod's labels or `isPodMatchPolicyPeer` is true for some
peer of some ingress rule or of some egress rule. -/
theorem isPodMatchNetworkPolicy_of_converts (pod : Pod) (podNs : Namespace)
    (policy : NetworkPolicy) (policyNs : String)
    (htarget : converts policy.PodSelector = true)
    (hingress : ((policy.Ingress.getD []).all fun npr => npr.From.all peerConverts) = true)
    (hegress : ((policy.Egress.getD []).all fun npr => npr.To.all peerConverts) = true) :
    isPodMatchNetworkPolicy pod podNs policy policyNs =
      some (selectorMatches policy.PodSelector pod.Labels ||
        ((policy.Ingress.getD []).any fun npr => npr.From.any fun npp =>
          isPodMatchPolicyPeer pod podNs npp policyNs == some true) ||
        ((policy.Egress.getD []).any fun npr => npr.To.any fun npp =>
          isPodMatchPolicyPeer pod podNs npp policyNs == some true)) := by
  have ht := matchesIgnoringError_of_converts policy.PodSelector pod.Labels htarget
  have hi := anyRuleMatches_of_converts pod podNs policyNs
    ((policy.Ingress.getD []).map (·.From)) (by simpa [List.all_map] using hingress)
  have he := anyRuleMatches_of_converts pod podNs policyNs
    ((policy.Egress.getD []).map (·.To)) (by simpa [List.all_map] using hegress)
  have hi2 : anyRuleMatches pod podNs policyNs ((policy.Ingress.getD []).map (·.From)) =
      some ((policy.Ingress.getD []).any fun npr => npr.From.any fun npp =>
        isPodMatchPolicyPeer pod podNs npp policyNs == some true) := by
    rw [hi, any_map_eq]
  have he2 : anyRuleMatches pod podNs policyNs ((policy.Egress.getD []).map (·.To)) =
      some ((policy.Egress.getD []).any fun npr => npr.To.any fun npp =>
        isPodMatchPolicyPeer pod podNs npp policyNs == some true) := by
    rw [he, any_map_eq]
  unfold isPodMatchNetworkPolicy
  rw [ht, hi2, he2]
  generalize selectorMatches policy.PodSelector pod.Labels = b1
  generalize ((policy.Ingress.getD []).any fun npr => npr.From.any fun npp =>
    isPodMatchPolicyPeer pod podNs npp policyNs == some true) = b2
  generalize ((policy.Egress.getD []).any fun npr => npr.To.any fun npp =>
    isPodMatchPolicyPeer pod podNs npp policyNs == some true) = b3
  cases b1 <;> cases b2 <;> cases b3 <;> rfl

/-- C10, the code at two failing inputs. The one ingress peer of
`malformedTargetPolicy` matches `webPod`, so the claim has
`isPodMatchNetworkPolicy` return true, but the policy's target selector does
not convert and the code panics on the nil selector of line 467. The second
ingress peer of `malformedFirstPeerPolicy` matches `webPod`, but the pod
selector of the first does not convert and the code panics on line 508. -/
theorem isPodMatchNetworkPolicy_malformed_target_panics :
    converts malformedTargetPolicy.PodSelector = false ∧
    isPodMatchPolicyPeer webPod defaultNs ⟨none, some selectAll, none⟩ "default" = some true ∧
    isPodMatchNetworkPolicy webPod defaultNs malformedTargetPolicy "default" = none ∧
    isPodMatchNetworkPolicy webPod defaultNs malformedFirstPeerPolicy "default" = none := by
  decide

/-- C2: for a CIDR peer `fetchPolicySelectedAddresses` returns the one-element
allowed list of the peer's CIDR, the peer's except list as it is, and no error,
whatever the controller's read-model is: no listing is consulted. -/
theorem fetchPolicySelectedAddresses_cidr (c : Controller) (namespace_ : String)
    (npp : NetworkPolicyPeer) (b : IPBlock) (h : npp.IPBlock = some b) :
    c.fetchPolicySelectedAddresses namespace_ npp = .ok ([b.CIDR], b.Except) := by
  simp [Controller.fetchPolicySelectedAddresses, h]

/-- C2 at the specification's example, on a read-model whose listings all
fail. -/
theorem fetchPolicySelectedAddresses_cidr_witness :
    cidrPeer.IPBlock = some ⟨"10.0.0.0/24", ["10.0.0.5/32"]⟩ ∧
    failingListers.fetchPolicySelectedAddresses "default" cidrPeer =
      .ok (["10.0.0.0/24"], ["10.0.0.5/32"]) :=
  ⟨rfl, fetchPolicySelectedAddresses_cidr failingListers "default" cidrPeer
    ⟨"10.0.0.0/24", ["10.0.0.5/32"]⟩ rfl⟩

/-- C9, the code at a failing input: the pod selector of `malformedPodPeer`
does not convert, yet `fetchPolicySelectedAddresses` returns an empty address
list and no error, and `handleUpdateNp` of a policy with that peer succeeds;
with the namespace selector absent and a pod in the namespace the nil selector
makes the listing panic. No error is returned in either case. -/
theorem fetchPolicySelectedAddresses_malformed_podSelector_no_error :
    malformedPodPeer.PodSelector = some malformedSelector ∧
    converts malformedSelector = false ∧
    smallCluster.fetchPolicySelectedAddresses "default" malformedPodPeer = .ok ([], []) ∧
    (smallCluster.handleUpdateNp "default/np" emptyOvn).1 = .ok () ∧
    smallCluster.fetchPolicySelectedAddresses "default" ⟨some malformedSelector, none, none⟩ =
      .panic := by
  decide

/-- The half of C9 the code keeps: a namespace selector that does not convert
is an error. -/
theorem fetchPolicySelectedAddresses_malformed_namespaceSelector (c : Controller)
    (namespace_ : String) (npp : NetworkPolicyPeer) (nsSel : LabelSelector)
    (hip : npp.IPBlock = none) (hns : npp.NamespaceSelector = some nsSel)
    (hbad : converts nsSel = false) :
    ∃ e, c.fetchPolicySelectedAddresses namespace_ npp = .error e := by
  unfold converts at hbad
  cases hc : LabelSelectorAsSelector (some nsSel) with
  | ok sel => simp [hc] at hbad
  | error e =>
    exact ⟨"error createing label selector, " ++ e, by
      simp [Controller.fetchPolicySelectedAddresses, hip, Controller.selectedNamespaces, hns, hc]⟩

theorem splitOnChar_head (sep : Char) (cs : List Char) :
    (splitOnChar sep cs).head? = some (cs.takeWhile fun ch => decide (ch ≠ sep)) := by
  induction cs with
  | nil => simp [splitOnChar]
  | cons c cs ih =>
    by_cases h : c = sep
    · simp [splitOnChar, h]
    · cases hs : splitOnChar sep cs with
      | nil => simp [hs] at ih
      | cons p ps =>
        simp [hs] at ih
        simp [splitOnChar, h, hs, ih]

theorem splitSlash_headD (s : String) :
    (splitSlash s).headD "" = ⟨s.data.takeWhile fun ch => decide (ch ≠ '/')⟩ := by
  have h := splitOnChar_head '/' s.data
  unfold splitSlash
  cases hs : splitOnChar '/' s.data with
  | nil => simp [hs] at h
  | cons p ps =>
    simp [hs] at h
    simp [h]

theorem appendPodAddresses_eq (acc : List String) (pods : List Pod) :
    appendPodAddresses acc pods = acc ++ pods.filterMap podAddress := by
  induction pods generalizing acc with
  | nil => simp [appendPodAddresses]
  | cons pod rest ih =>
    unfold appendPodAddresses
    by_cases ha : pod.Annotations.Get IpAddressAnnotation = ""
    · by_cases hp : pod.PodIP = ""
      · simp [ha, hp, ih, podAddress]
      · simp [ha, hp, ih, podAddress]
    · rw [if_pos (by simpa using ha), ih, splitSlash_headD]
      simp [podAddress, ha]

theorem appendNamespaceAddresses_eq (c : Controller) (sel : Selector)
    (hpods : ∀ ns, c.listPodsErr ns = none) (acc : List String) (nss : List String) :
    c.appendNamespaceAddresses (some sel) acc nss =
      .ok (acc ++ (nss.flatMap fun ns =>
        (c.podsOfNamespace ns).filter fun pod => sel.Matches pod.Labels).filterMap podAddress) := by
  induction nss generalizing acc with
  | nil => simp [Controller.appendNamespaceAddresses]
  | cons ns rest ih =>
    simp [Controller.appendNamespaceAddresses, Controller.podsListerList, hpods, ih,
      appendPodAddresses_eq, List.filterMap_append]

theorem foldl_append_names (nss : List Namespace) (acc : List String) :
    nss.foldl (fun selectedNs ns => selectedNs ++ [ns.Name]) acc = acc ++ nss.map (·.Name) := by
  induction nss generalizing acc with
  | nil => simp
  | cons ns rest ih => simp [ih]

theorem fetchPolicySelectedAddresses_eq_resolved (c : Controller) (namespace_ : String)
    (npp : NetworkPolicyPeer) (hip : npp.IPBlock = none)
    (hnsOk : ∀ nsSel, npp.NamespaceSelector = some nsSel → converts nsSel = true)
    (hpodOk : ∀ ps, npp.PodSelector = some ps → converts ps = true)
    (hlistNs : c.listNamespacesErr = none) (hlistPods : ∀ ns, c.listPodsErr ns = none) :
    c.fetchPolicySelectedAddresses namespace_ npp =
      .ok (c.resolvedAddresses namespace_ npp, []) := by
  obtain ⟨ps, nss, ipb⟩ := npp
  simp only at hip hnsOk hpodOk
  subst hip
  have hsel : ∃ sel, podSelectorIgnoringError ⟨ps, nss, none⟩ = some sel ∧
      ∀ pod : Pod, sel.Matches pod.Labels = workloadSelected ⟨ps, nss, none⟩ pod := by
    cases ps with
    | none =>
      exact ⟨Selector.everything, rfl, fun pod => by
        simp [Selector.everything, Selector.Matches, workloadSelected]⟩
    | some ps =>
      have hc := hpodOk ps rfl
      unfold converts at hc
      cases hconv : LabelSelectorAsSelector (some ps) with
      | error e => simp [hconv] at hc
      | ok sel =>
        exact ⟨sel, by simp [podSelectorIgnoringError, hconv], fun pod => by
          simp [selectorMatches, hconv, workloadSelected]⟩
  obtain ⟨sel, hsel, hmatch⟩ := hsel
  have hns : c.selectedNamespaces namespace_ ⟨ps, nss, none⟩ =
      .ok (c.candidateNamespaces namespace_ ⟨ps, nss, none⟩) := by
    cases nss with
    | none => simp [Controller.selectedNamespaces, Controller.candidateNamespaces]
    | some nsSel =>
      have hc := hnsOk nsSel rfl
      unfold converts at hc
      cases hconv : LabelSelectorAsSelector (some nsSel) with
      | error e => simp [hconv] at hc
      | ok s =>
        simp [Controller.selectedNamespaces, Controller.candidateNamespaces, hconv,
          Controller.namespacesListerList, hlistNs, foldl_append_names, selectorMatches]
  have hfun : (fun pod : Pod => sel.Matches pod.Labels) = workloadSelected ⟨ps, nss, none⟩ :=
    funext hmatch
  simp only [Controller.fetchPolicySelectedAddresses, hns, hsel,
    appendNamespaceAddresses_eq c sel hlistPods, Controller.resolvedAddresses, hfun,
    List.nil_append]
  rfl

/-- C3 as amended: for a selector peer whose selectors convert and a read-model
whose listings succeed, `fetchPolicySelectedAddresses` returns an empty except
list and, as allowed list, one address per matched workload that has one, in
listing order over the candidate namespaces and their matched workloads. -/
theorem fetchPolicySelectedAddresses_selector (c : Controller) (namespace_ : String)
    (npp : NetworkPolicyPeer) (hip : npp.IPBlock = none)
    (hnsOk : ∀ nsSel, npp.NamespaceSelector = some nsSel → converts nsSel = true)
    (hpodOk : ∀ ps, npp.PodSelector = some ps → converts ps = true)
    (hlistNs : c.listNamespacesErr = none) (hlistPods : ∀ ns, c.listPodsErr ns = none) :
    c.fetchPolicySelectedAddresses namespace_ npp =
      .ok (c.resolvedAddresses namespace_ npp, []) :=
  fetchPolicySelectedAddresses_eq_resolved c namespace_ npp hip hnsOk hpodOk hlistNs hlistPods

/-- C3 as amended, at a pod with an annotated address, a pod with only a pod IP
and a pod with neither. -/
theorem fetchPolicySelectedAddresses_selector_witness :
    threePods.fetchPolicySelectedAddresses "default" ⟨some ⟨[("app", "web")], []⟩, none, none⟩ =
        .ok (threePods.resolvedAddresses "default" ⟨some ⟨[("app", "web")], []⟩, none, none⟩, []) ∧
    threePods.resolvedAddresses "default" ⟨some ⟨[("app", "web")], []⟩, none, none⟩ =
      ["10.16.0.4", "10.0.0.9"] :=
  ⟨fetchPolicySelectedAddresses_selector threePods "default"
      ⟨some ⟨[("app", "web")], []⟩, none, none⟩ rfl (by decide) (by decide) rfl (fun _ => rfl),
    by decide⟩

/-- C3 as stated fails: the listings of `smallCluster` succeed and
`malformedNsPeer` is a selector peer, yet `fetchPolicySelectedAddresses`
returns an error and no address list, because the namespace selector does not
convert; and for a selector peer whose pod selector does not convert it panics
on the pods of the policy's namespace. -/
theorem fetchPolicySelectedAddresses_selector_counterexample :
    malformedNsPeer.IPBlock = none ∧
    smallCluster.listNamespacesErr = none ∧
    (∀ ns, smallCluster.listPodsErr ns = none) ∧
    smallCluster.fetchPolicySelectedAddresses "default" malformedNsPeer =
      .error "error createing label selector, invalid label value" ∧
    (¬ ∃ allowed, smallCluster.fetchPolicySelectedAddresses "default" malformedNsPeer =
      .ok (allowed, [])) ∧
    smallCluster.fetchPolicySelectedAddresses "default" ⟨some malformedSelector, none, none⟩ =
      .panic := by
  refine ⟨rfl, rfl, fun _ => rfl, by decide, ?_, by decide⟩
  have h : smallCluster.fetchPolicySelectedAddresses "default" malformedNsPeer =
      .error "error createing label selector, invalid label value" := by decide
  rw [h]
  simp

theorem replaceHyphens_append (a b : String) :
    replaceHyphens (a ++ b) = replaceHyphens a ++ replaceHyphens b := by
  apply String.ext
  simp [replaceHyphens]

theorem pgName_injective_left (n1 n2 namespace_ : String)
    (h : pgName n1 namespace_ = pgName n2 namespace_) : n1 = n2 := by
  have hd := congrArg String.data h
  simp only [pgName, String.data_append] at hd
  rw [List.append_assoc, List.append_assoc] at hd
  exact String.ext (List.append_cancel_right hd)

/-- C7 as amended: for every namespace, two policy names that differ only by
hyphen versus dot derive the same four address-set names, in `handleUpdateNp`
and `handleDeleteNp` alike, while the port-group name keeps the hyphens, so
different names derive different port groups. -/
theorem addressSetNames_alias (n1 n2 namespace_ : String)
    (h : replaceHyphens n1 = replaceHyphens n2) :
    ingressAllowAsName n1 namespace_ = ingressAllowAsName n2 namespace_ ∧
    ingressExceptAsName n1 namespace_ = ingressExceptAsName n2 namespace_ ∧
    egressAllowAsName n1 namespace_ = egressAllowAsName n2 namespace_ ∧
    egressExceptAsName n1 namespace_ = egressExceptAsName n2 namespace_ ∧
    (n1 ≠ n2 → pgName n1 namespace_ ≠ pgName n2 namespace_) := by
  refine ⟨?_, ?_, ?_, ?_, fun hne hpg => hne (pgName_injective_left n1 n2 namespace_ hpg)⟩ <;>
    simp only [ingressAllowAsName, ingressExceptAsName, egressAllowAsName, egressExceptAsName,
      replaceHyphens_append, h]

/-- C7 as amended, at the policies `test-np` and `test.np` of namespace
`default`. -/
theorem addressSetNames_alias_witness :
    replaceHyphens "test-np" = replaceHyphens "test.np" ∧
    ingressAllowAsName "test-np" "default" = "test.np.default.ingress.allow" ∧
    (ingressAllowAsName "test-np" "default" = ingressAllowAsName "test.np" "default" ∧
      ingressExceptAsName "test-np" "default" = ingressExceptAsName "test.np" "default" ∧
      egressAllowAsName "test-np" "default" = egressAllowAsName "test.np" "default" ∧
      egressExceptAsName "test-np" "default" = egressExceptAsName "test.np" "default" ∧
      ("test-np" ≠ "test.np" → pgName "test-np" "default" ≠ pgName "test.np" "default")) :=
  ⟨by decide, by decide, addressSetNames_alias "test-np" "test.np" "default" (by decide)⟩

/-- C7 as stated fails: the policies `test-np` and `test.np` of namespace
`default` differ only by hyphen versus dot, yet `handleUpdateNp` creates the
port group `test-np.default` for the first and `test.np.default` for the
second, and `handleDeleteNp` deletes these two different port groups. -/
theorem pgName_alias_counterexample :
    replaceHyphens "test-np" = replaceHyphens "test.np" ∧
    (twoPolicies.handleUpdateNp "default/test-np" emptyOvn).2.trace.head? =
      some (.CreatePortGroup "test-np.default") ∧
    (twoPolicies.handleUpdateNp "default/test.np" emptyOvn).2.trace.head? =
      some (.CreatePortGroup "test.np.default") ∧
    (twoPolicies.handleDeleteNp "default/test-np" emptyOvn).2.trace.getLast? =
      some (.DeletePortGroup "test-np.default") ∧
    (twoPolicies.handleDeleteNp "default/test.np" emptyOvn).2.trace.getLast? =
      some (.DeletePortGroup "test.np.default") ∧
    pgName "test-np" "default" ≠ "test.np.default" ∧
    pgName "test-np" "default" ≠ pgName "test.np" "default" := by
  decide

theorem ovnClient_of_fails (c : Controller) (call : OvnCall) (e : String) (s : Ovn)
    (h : c.ovnFails call = some e) :
    c.ovnClient call s = (.error e, ⟨s.db, s.trace ++ [call]⟩) := by
  simp [Controller.ovnClient, h]

theorem ovnClient_of_succeeds (c : Controller) (call : OvnCall) (s : Ovn)
    (h : c.ovnFails call = none) :
    c.ovnClient call s = (.ok (), ⟨call.apply s.db, s.trace ++ [call]⟩) := by
  simp [Controller.ovnClient, h]

theorem bind_apply {α β : Type} (m : OvnM α) (f : α → OvnM β) (s : Ovn) :
    (m >>= f) s = OvnM.bind m f s := rfl

theorem pure_apply {α : Type} (a : α) (s : Ovn) : (pure a : OvnM α) s = (.ok a, s) := rfl

/-- C8 as amended: for a valid key `handleDeleteNp` attempts the deletions in
the order ingress ACL, egress ACL, the four address sets, and stops at the first
of these six that fails, returning its error with no later deletion attempted;
when the six succeed it attempts the port group's deletion and returns no error
whatever that deletion's result. -/
theorem handleDeleteNp_stops_at_first_failure (c : Controller) (key namespace_ name : String)
    (s : Ovn) (hkey : SplitMetaNamespaceKey key = .ok (namespace_, name)) :
    (c.handleDeleteNp key s).2.trace =
      s.trace ++ (attemptedUntilFailure c.ovnFails (deletionsBeforePortGroup name namespace_)).1 ++
        (if (attemptedUntilFailure c.ovnFails (deletionsBeforePortGroup name namespace_)).2 = none
          then [.DeletePortGroup (pgName name namespace_)] else []) ∧
    (c.handleDeleteNp key s).1 =
      (match (attemptedUntilFailure c.ovnFails (deletionsBeforePortGroup name namespace_)).2 with
        | some e => .error e
        | none => .ok ()) := by
  cases h1 : c.ovnFails (.DeleteACL (pgName name namespace_) "to-lport") <;>
  cases h2 : c.ovnFails (.DeleteACL (pgName name namespace_) "from-lport") <;>
  cases h3 : c.ovnFails (.DeleteAddressSet (ingressAllowAsName name namespace_)) <;>
  cases h4 : c.ovnFails (.DeleteAddressSet (ingressExceptAsName name namespace_)) <;>
  cases h5 : c.ovnFails (.DeleteAddressSet (egressAllowAsName name namespace_)) <;>
  cases h6 : c.ovnFails (.DeleteAddressSet (egressExceptAsName name namespace_)) <;>
  cases h7 : c.ovnFails (.DeletePortGroup (pgName name namespace_)) <;>
  simp [Controller.handleDeleteNp, hkey, deletionsBeforePortGroup, attemptedUntilFailure,
    bind_apply, OvnM.bind, pure_apply, OvnM.logOnly, Controller.ovnClient, h1, h2, h3, h4, h5,
    h6, h7]

/-- C8 as amended, at the key `default/np` on a backend that fails the first
deletion: one call is attempted and its error returned. -/
theorem handleDeleteNp_stops_at_first_failure_witness :
    SplitMetaNamespaceKey "default/np" = .ok ("default", "np") ∧
    ((failingFirstDelete.handleDeleteNp "default/np" emptyOvn).2.trace =
      emptyOvn.trace ++
        (attemptedUntilFailure failingFirstDelete.ovnFails
          (deletionsBeforePortGroup "np" "default")).1 ++
        (if (attemptedUntilFailure failingFirstDelete.ovnFails
            (deletionsBeforePortGroup "np" "default")).2 = none
          then [.DeletePortGroup (pgName "np" "default")] else []) ∧
    (failingFirstDelete.handleDeleteNp "default/np" emptyOvn).1 =
      (match (attemptedUntilFailure failingFirstDelete.ovnFails
          (deletionsBeforePortGroup "np" "default")).2 with
        | some e => .error e
        | none => .ok ())) :=
  ⟨by decide, handleDeleteNp_stops_at_first_failure failingFirstDelete "default/np" "default" "np"
    emptyOvn (by decide)⟩

/-- C8 as stated fails: on a backend that fails the deletion of the ingress ACL,
`handleDeleteNp` returns that error after this one call; the other six
deletions are not attempted and the backend is left as it was. -/
theorem handleDeleteNp_independence_counterexample :
    failingFirstDelete.handleDeleteNp "default/np" emptyOvn =
      (.error "backend down", ⟨emptyOvn.db, [.DeleteACL "np.default" "to-lport"]⟩) ∧
    (failingFirstDelete.handleDeleteNp "default/np" emptyOvn).2.trace.length ≠ 7 := by
  decide

/-! ### The backend's tables -/

theorem hasKey_tableCreate (m n : String) (t : List (String × Finset String)) :
    HasKey m (tableCreate n t) ↔ m = n ∨ HasKey m t := by
  unfold HasKey tableCreate
  by_cases h : n ∈ t.map Prod.fst
  · rw [if_pos h]
    constructor
    · intro hm; exact Or.inr hm
    · rintro (rfl | hm)
      · exact h
      · exact hm
  · rw [if_neg h]
    simp only [List.map_append, List.mem_append, List.map_cons, List.map_nil, List.mem_singleton]
    tauto

theorem hasKey_tableSet (m n : String) (v : Finset String) (t : List (String × Finset String)) :
    HasKey m (tableSet n v t) ↔ HasKey m t := by
  unfold HasKey
  suffices h : (tableSet n v t).map Prod.fst = t.map Prod.fst by rw [h]
  unfold tableSet
  rw [List.map_map]
  apply List.map_congr_left
  intro row _
  by_cases h : row.1 = n <;> simp [h]

theorem hasKey_tableDelete (m n : String) (t : List (String × Finset String)) :
    HasKey m (tableDelete n t) ↔ m ≠ n ∧ HasKey m t := by
  unfold HasKey tableDelete
  simp only [List.mem_map, List.mem_filter, decide_eq_true_eq]
  constructor
  · rintro ⟨row, ⟨hrow, hne⟩, rfl⟩
    exact ⟨hne, row, hrow, rfl⟩
  · rintro ⟨hne, row, hrow, rfl⟩
    exact ⟨row, ⟨hrow, hne⟩, rfl⟩

theorem tableCreate_of_hasKey (n : String) (t : List (String × Finset String))
    (h : HasKey n t) : tableCreate n t = t := by
  unfold HasKey at h
  unfold tableCreate
  rw [if_pos h]

theorem tableSet_of_hasValue (n : String) (v : Finset String) (t : List (String × Finset String))
    (h : HasValue n v t) : tableSet n v t = t := by
  unfold tableSet
  conv_rhs => rw [← List.map_id t]
  apply List.map_congr_left
  intro row hrow
  by_cases hn : row.1 = n
  · have := h row hrow hn
    simp only [hn, if_true, id]
    rw [← this, ← hn]
  · simp [hn]

theorem tableDelete_of_not_hasKey (n : String) (t : List (String × Finset String))
    (h : ¬ HasKey n t) : tableDelete n t = t := by
  unfold HasKey at h
  unfold tableDelete
  rw [List.filter_eq_self]
  intro row hrow
  simp only [decide_eq_true_eq]
  intro hn
  exact h (hn ▸ List.mem_map_of_mem Prod.fst hrow)

theorem hasValue_tableSet_self (n : String) (v : Finset String) (t : List (String × Finset String)) :
    HasValue n v (tableSet n v t) := by
  intro row hrow hn
  unfold tableSet at hrow
  rw [List.mem_map] at hrow
  obtain ⟨r, _, rfl⟩ := hrow
  by_cases h : r.1 = n
  · simp [h]
  · simp [h] at hn

theorem hasValue_tableSet_ne (n m : String) (v w : Finset String) (t : List (String × Finset String))
    (hne : n ≠ m) : HasValue n v (tableSet m w t) ↔ HasValue n v t := by
  unfold HasValue tableSet
  constructor
  · intro h row hrow hn
    have hm : ¬ row.1 = m := fun e => hne (hn ▸ e)
    have := h row (List.mem_map.mpr ⟨row, hrow, by simp [hm]⟩) hn
    exact this
  · intro h row hrow hn
    rw [List.mem_map] at hrow
    obtain ⟨r, hr, rfl⟩ := hrow
    by_cases hm : r.1 = m
    · simp [hm] at hn
      exact absurd hn.symm hne
    · simp [hm] at hn ⊢
      exact h r hr hn

theorem hasValue_tableCreate_ne (n m : String) (v : Finset String) (t : List (String × Finset String))
    (hne : n ≠ m) : HasValue n v (tableCreate m t) ↔ HasValue n v t := by
  unfold HasValue tableCreate
  by_cases h : m ∈ t.map Prod.fst
  · rw [if_pos h]
  · rw [if_neg h]
    constructor
    · intro hv row hrow hn
      exact hv row (List.mem_append_left _ hrow) hn
    · intro hv row hrow hn
      rw [List.mem_append] at hrow
      rcases hrow with hrow | hrow
      · exact hv row hrow hn
      · simp only [List.mem_singleton] at hrow
        subst hrow
        exact absurd hn.symm hne

theorem hasValue_tableDelete_ne (n m : String) (v : Finset String) (t : List (String × Finset String))
    (hne : n ≠ m) : HasValue n v (tableDelete m t) ↔ HasValue n v t := by
  unfold HasValue tableDelete
  constructor
  · intro hv row hrow hn
    have hm : row.1 ≠ m := fun e => hne (hn ▸ e)
    exact hv row (List.mem_filter.mpr ⟨hrow, by simpa using hm⟩) hn
  · intro hv row hrow hn
    exact hv row (List.mem_filter.mp hrow).1 hn

theorem aclDelete_append (pg d : String) (t u : List ACL) :
    aclDelete pg d (t ++ u) = aclDelete pg d t ++ aclDelete pg d u := by
  simp [aclDelete]

theorem aclDelete_idem (pg d : String) (t : List ACL) :
    aclDelete pg d (aclDelete pg d t) = aclDelete pg d t := by
  simp [aclDelete, List.filter_filter]

theorem aclDelete_comm (pg d pg2 d2 : String) (t : List ACL) :
    aclDelete pg d (aclDelete pg2 d2 t) = aclDelete pg2 d2 (aclDelete pg d t) := by
  simp only [aclDelete, List.filter_filter]
  apply List.filter_congr
  intro a _
  exact Bool.and_comm _ _

theorem aclDelete_absorb (pg d pg2 d2 : String) (t : List ACL) :
    aclDelete pg d (aclDelete pg2 d2 (aclDelete pg d t)) = aclDelete pg2 d2 (aclDelete pg d t) := by
  rw [aclDelete_comm pg d pg2 d2, aclDelete_idem]

theorem aclDelete_nil (pg d : String) : aclDelete pg d [] = [] := rfl

theorem aclDelete_cons (pg d : String) (a : ACL) (t : List ACL) :
    aclDelete pg d (a :: t) =
      if a.pgName = pg ∧ a.direction = d then aclDelete pg d t else a :: aclDelete pg d t := by
  by_cases h : a.pgName = pg ∧ a.direction = d
  · simp [aclDelete, h]
  · rw [if_neg h]
    simp only [aclDelete, List.filter_cons]
    simp [h]

theorem lport_ne : "to-lport" ≠ "from-lport" ∧ "from-lport" ≠ "to-lport" := by decide

/-! ### The derived names are distinct -/

theorem string_append_left_cancel (a b d : String) (h : a ++ b = a ++ d) : b = d := by
  have hd := congrArg String.data h
  simp only [String.data_append] at hd
  exact String.ext (List.append_cancel_left hd)

theorem replaceHyphens_suffix_ne (base suf1 suf2 : String)
    (h : replaceHyphens suf1 ≠ replaceHyphens suf2) :
    replaceHyphens (base ++ suf1) ≠ replaceHyphens (base ++ suf2) := by
  rw [replaceHyphens_append, replaceHyphens_append]
  intro he
  exact h (string_append_left_cancel _ _ _ he)

theorem asNames_distinct (name namespace_ : String) :
    ingressAllowAsName name namespace_ ≠ ingressExceptAsName name namespace_ ∧
    ingressAllowAsName name namespace_ ≠ egressAllowAsName name namespace_ ∧
    ingressAllowAsName name namespace_ ≠ egressExceptAsName name namespace_ ∧
    ingressExceptAsName name namespace_ ≠ egressAllowAsName name namespace_ ∧
    ingressExceptAsName name namespace_ ≠ egressExceptAsName name namespace_ ∧
    egressAllowAsName name namespace_ ≠ egressExceptAsName name namespace_ := by
  unfold ingressAllowAsName ingressExceptAsName egressAllowAsName egressExceptAsName
  refine ⟨?_, ?_, ?_, ?_, ?_, ?_⟩ <;>
    exact replaceHyphens_suffix_ne _ _ _ (by decide)

/-! ### Runs on a backend that never fails -/

theorem ovnClient_bind_apply {β : Type} (c : Controller) (call : OvnCall) (f : Unit → OvnM β)
    (s : Ovn) (h : c.ovnFails call = none) :
    (c.ovnClient call >>= f) s = f () ⟨call.apply s.db, s.trace ++ [call]⟩ := by
  simp [bind_apply, OvnM.bind, Controller.ovnClient, h]

theorem lift_bind_apply {α β : Type} (o : Outcome α) (f : α → OvnM β) (s : Ovn) :
    (OvnM.lift o >>= f) s =
      (match o with
        | .ok a => f a s
        | .error e => (.error e, s)
        | .panic => (.panic, s)) := by
  cases o <;> simp [bind_apply, OvnM.bind, OvnM.lift]


theorem reconcileIngress_apply (c : Controller) (np : NetworkPolicy)
    (pg ia ie : String) (ports : List NetworkPolicyPort) (s : Ovn)
    (hback : ∀ call, c.ovnFails call = none) :
    c.reconcileIngress np pg ia ie ports s =
      if hasIngressRule np then
        match c.appendRuleAddresses np.Namespace ([], []) ((np.Ingress.getD []).map (·.From)) with
        | .ok (allows, excepts) =>
          (.ok (), ⟨{ s.db with
              addressSets := tableSet ie excepts.toFinset (tableSet ia allows.toFinset
                (tableCreate ie (tableCreate ia s.db.addressSets))),
              acls := aclReplace ⟨pg, "to-lport", ia, ie, ports⟩ s.db.acls },
            s.trace ++ [.CreateAddressSet ia, .CreateAddressSet ie,
              .SetAddressesToAddressSet allows ia, .SetAddressesToAddressSet excepts ie,
              .CreateIngressACL pg ia ie ports]⟩)
        | .error e =>
          (.error e, ⟨{ s.db with
              addressSets := tableCreate ie (tableCreate ia s.db.addressSets) },
            s.trace ++ [.CreateAddressSet ia, .CreateAddressSet ie]⟩)
        | .panic =>
          (.panic, ⟨{ s.db with
              addressSets := tableCreate ie (tableCreate ia s.db.addressSets) },
            s.trace ++ [.CreateAddressSet ia, .CreateAddressSet ie]⟩)
      else
        (.ok (), ⟨{ s.db with
            addressSets := tableDelete ie (tableDelete ia s.db.addressSets),
            acls := aclDelete pg "to-lport" s.db.acls },
          s.trace ++ [.DeleteACL pg "to-lport", .DeleteAddressSet ia, .DeleteAddressSet ie]⟩) := by
  unfold Controller.reconcileIngress
  cases hi : hasIngressRule np
  · simp [ovnClient_bind_apply, hback, Controller.ovnClient, OvnCall.apply]
  · rcases hr : c.appendRuleAddresses np.Namespace ([], []) ((np.Ingress.getD []).map (·.From))
      with ⟨al, ex⟩ | e | _ <;>
    simp [ovnClient_bind_apply, lift_bind_apply, hback, Controller.ovnClient, OvnCall.apply, hr]
theorem reconcileEgress_apply (c : Controller) (np : NetworkPolicy)
    (pg ea ee : String) (ports : List NetworkPolicyPort) (s : Ovn)
    (hback : ∀ call, c.ovnFails call = none) :
    c.reconcileEgress np pg ea ee ports s =
      if hasEgressRule np then
        match c.appendRuleAddresses np.Namespace ([], []) ((np.Egress.getD []).map (·.To)) with
        | .ok (allows, excepts) =>
          (.ok (), ⟨{ s.db with
              addressSets := tableSet ee excepts.toFinset (tableSet ea allows.toFinset
                (tableCreate ee (tableCreate ea s.db.addressSets))),
              acls := aclReplace ⟨pg, "from-lport", ea, ee, ports⟩ s.db.acls },
            s.trace ++ [.CreateAddressSet ea, .CreateAddressSet ee,
              .SetAddressesToAddressSet allows ea, .SetAddressesToAddressSet excepts ee,
              .CreateEgressACL pg ea ee ports]⟩)
        | .error e =>
          (.error e, ⟨{ s.db with
              addressSets := tableCreate ee (tableCreate ea s.db.addressSets) },
            s.trace ++ [.CreateAddressSet ea, .CreateAddressSet ee]⟩)
        | .panic =>
          (.panic, ⟨{ s.db with
              addressSets := tableCreate ee (tableCreate ea s.db.addressSets) },
            s.trace ++ [.CreateAddressSet ea, .CreateAddressSet ee]⟩)
      else
        (.ok (), ⟨{ s.db with
            addressSets := tableDelete ee (tableDelete ea s.db.addressSets),
            acls := aclDelete pg "from-lport" s.db.acls },
          s.trace ++ [.DeleteACL pg "from-lport", .DeleteAddressSet ea, .DeleteAddressSet ee]⟩) := by
  unfold Controller.reconcileEgress
  cases hi : hasEgressRule np
  · simp [ovnClient_bind_apply, hback, Controller.ovnClient, OvnCall.apply]
  · rcases hr : c.appendRuleAddresses np.Namespace ([], []) ((np.Egress.getD []).map (·.To))
      with ⟨al, ex⟩ | e | _ <;>
    simp [ovnClient_bind_apply, lift_bind_apply, hback, Controller.ovnClient, OvnCall.apply, hr]

theorem reconcilePolicy_apply (c : Controller) (np : NetworkPolicy) (s : Ovn)
    (hback : ∀ call, c.ovnFails call = none) :
    c.reconcilePolicy np s =
      match c.fetchSelectedPorts np.Namespace (some np.PodSelector) with
      | .ok ports =>
        (c.reconcileIngress np (pgName np.Name np.Namespace)
            (ingressAllowAsName np.Name np.Namespace) (ingressExceptAsName np.Name np.Namespace)
            ((np.Ingress.getD []).foldl (fun ports npr => ports ++ npr.Ports) []) >>= fun _ =>
          c.reconcileEgress np (pgName np.Name np.Namespace)
            (egressAllowAsName np.Name np.Namespace) (egressExceptAsName np.Name np.Namespace)
            ((np.Egress.getD []).foldl (fun ports npr => ports ++ npr.Ports) []))
          ⟨{ s.db with
              portGroups := (tableSet (pgName np.Name np.Namespace) ports.toFinset
                (tableCreate (pgName np.Name np.Namespace) s.db.portGroups)) },
            s.trace ++ [.CreatePortGroup (pgName np.Name np.Namespace),
              .SetPortsToPortGroup (pgName np.Name np.Namespace) ports]⟩
      | .error e =>
        (.error e, ⟨{ s.db with
            portGroups := tableCreate (pgName np.Name np.Namespace) s.db.portGroups },
          s.trace ++ [.CreatePortGroup (pgName np.Name np.Namespace)]⟩)
      | .panic =>
        (.panic, ⟨{ s.db with
            portGroups := tableCreate (pgName np.Name np.Namespace) s.db.portGroups },
          s.trace ++ [.CreatePortGroup (pgName np.Name np.Namespace)]⟩) := by
  unfold Controller.reconcilePolicy
  rcases hp : c.fetchSelectedPorts np.Namespace (some np.PodSelector) with ports | e | _ <;>
  simp [ovnClient_bind_apply, lift_bind_apply, hback, OvnCall.apply, hp]

theorem branchAborts_of_ok (active : Bool) (r : Outcome (List String × List String)) (u : Unit)
    (h : branchOutcome active r = .ok u) : branchAborts active (resolvedSets r) = false := by
  cases active
  · rfl
  · rcases r with ⟨al, ex⟩ | e | _
    · rfl
    · simp [branchOutcome] at h
    · simp [branchOutcome] at h

theorem branchAborts_of_error (active : Bool) (r : Outcome (List String × List String))
    (e : String) (h : branchOutcome active r = .error e) :
    branchAborts active (resolvedSets r) = true := by
  cases active
  · simp [branchOutcome] at h
  · rcases r with ⟨al, ex⟩ | e2 | _
    · simp [branchOutcome] at h
    · rfl
    · rfl

theorem branchAborts_of_panic (active : Bool) (r : Outcome (List String × List String))
    (h : branchOutcome active r = .panic) : branchAborts active (resolvedSets r) = true := by
  cases active
  · simp [branchOutcome] at h
  · rcases r with ⟨al, ex⟩ | e2 | _
    · simp [branchOutcome] at h
    · rfl
    · rfl

theorem reconcileIngress_effect (c : Controller) (np : NetworkPolicy)
    (pg ia ie : String) (ports : List NetworkPolicyPort) (s : Ovn)
    (hback : ∀ call, c.ovnFails call = none) :
    (c.reconcileIngress np pg ia ie ports s).1 = branchOutcome (hasIngressRule np)
      (c.appendRuleAddresses np.Namespace ([], []) ((np.Ingress.getD []).map (·.From))) ∧
    (c.reconcileIngress np pg ia ie ports s).2.db = branchEffect (hasIngressRule np)
      (resolvedSets
        (c.appendRuleAddresses np.Namespace ([], []) ((np.Ingress.getD []).map (·.From))))
      pg "to-lport" ia ie ports s.db := by
  rw [reconcileIngress_apply c np pg ia ie ports s hback]
  unfold branchOutcome branchEffect
  cases hi : hasIngressRule np
  · simp
  · rcases hr : c.appendRuleAddresses np.Namespace ([], []) ((np.Ingress.getD []).map (·.From))
      with ⟨al, ex⟩ | e | _ <;> simp [hr, resolvedSets]

theorem reconcileEgress_effect (c : Controller) (np : NetworkPolicy)
    (pg ea ee : String) (ports : List NetworkPolicyPort) (s : Ovn)
    (hback : ∀ call, c.ovnFails call = none) :
    (c.reconcileEgress np pg ea ee ports s).1 = branchOutcome (hasEgressRule np)
      (c.appendRuleAddresses np.Namespace ([], []) ((np.Egress.getD []).map (·.To))) ∧
    (c.reconcileEgress np pg ea ee ports s).2.db = branchEffect (hasEgressRule np)
      (resolvedSets
        (c.appendRuleAddresses np.Namespace ([], []) ((np.Egress.getD []).map (·.To))))
      pg "from-lport" ea ee ports s.db := by
  rw [reconcileEgress_apply c np pg ea ee ports s hback]
  unfold branchOutcome branchEffect
  cases he : hasEgressRule np
  · simp
  · rcases hr : c.appendRuleAddresses np.Namespace ([], []) ((np.Egress.getD []).map (·.To))
      with ⟨al, ex⟩ | e | _ <;> simp [hr, resolvedSets]

theorem seq_effect_ok (m k : OvnM Unit) (u : Unit) (r2 : Outcome Unit) (F G : OvnDB → OvnDB)
    (hm : ∀ s, (m s).1 = .ok u ∧ (m s).2.db = F s.db)
    (hk : ∀ s, (k s).1 = r2 ∧ (k s).2.db = G s.db) (s : Ovn) :
    ((m >>= fun _ => k) s).1 = r2 ∧ ((m >>= fun _ => k) s).2.db = G (F s.db) := by
  obtain ⟨h1, h2⟩ := hm s
  rw [bind_apply]
  unfold OvnM.bind
  rcases hms : m s with ⟨r, s2⟩
  rw [hms] at h1 h2
  simp only at h1 h2
  subst h1
  simp only
  rw [← h2]
  exact hk s2

theorem seq_effect_error (m k : OvnM Unit) (e : String) (F : OvnDB → OvnDB)
    (hm : ∀ s, (m s).1 = .error e ∧ (m s).2.db = F s.db) (s : Ovn) :
    ((m >>= fun _ => k) s).1 = .error e ∧ ((m >>= fun _ => k) s).2.db = F s.db := by
  obtain ⟨h1, h2⟩ := hm s
  rw [bind_apply]
  unfold OvnM.bind
  rcases hms : m s with ⟨r, s2⟩
  rw [hms] at h1 h2
  simp only at h1 h2
  subst h1
  exact ⟨rfl, h2⟩

theorem seq_effect_panic (m k : OvnM Unit) (F : OvnDB → OvnDB)
    (hm : ∀ s, (m s).1 = .panic ∧ (m s).2.db = F s.db) (s : Ovn) :
    ((m >>= fun _ => k) s).1 = .panic ∧ ((m >>= fun _ => k) s).2.db = F s.db := by
  obtain ⟨h1, h2⟩ := hm s
  rw [bind_apply]
  unfold OvnM.bind
  rcases hms : m s with ⟨r, s2⟩
  rw [hms] at h1 h2
  simp only at h1 h2
  subst h1
  exact ⟨rfl, h2⟩

theorem reconcilePolicy_effect (c : Controller) (np : NetworkPolicy) (s : Ovn)
    (hback : ∀ call, c.ovnFails call = none) :
    (c.reconcilePolicy np s).1 = c.policyOutcome np ∧
    (c.reconcilePolicy np s).2.db = c.policyEffect np s.db := by
  rw [reconcilePolicy_apply c np s hback]
  unfold Controller.policyOutcome Controller.policyEffect reconcileEffect
  rcases hp : c.fetchSelectedPorts np.Namespace (some np.PodSelector) with ports | e | _
  · rcases hio : branchOutcome (hasIngressRule np)
      (c.appendRuleAddresses np.Namespace ([], []) ((np.Ingress.getD []).map (·.From)))
      with u | e | _
    · simp only [hio, memberSet, branchAborts_of_ok _ _ u hio, Bool.false_eq_true, if_false]
      exact seq_effect_ok _ _ u _ _ _
        (fun s1 => hio ▸ reconcileIngress_effect c np _ _ _ _ s1 hback)
        (fun s1 => reconcileEgress_effect c np _ _ _ _ s1 hback) _
    · simp only [hio, memberSet, branchAborts_of_error _ _ e hio, if_true]
      exact seq_effect_error _ _ e _
        (fun s1 => hio ▸ reconcileIngress_effect c np _ _ _ _ s1 hback) _
    · simp only [hio, memberSet, branchAborts_of_panic _ _ hio, if_true]
      exact seq_effect_panic _ _ _
        (fun s1 => hio ▸ reconcileIngress_effect c np _ _ _ _ s1 hback) _
  · exact ⟨rfl, rfl⟩
  · exact ⟨rfl, rfl⟩

theorem reconcileEffect_idempotent (selected : Option (Finset String)) (ingress egress : Bool)
    (ri re : Option (Finset String × Finset String)) (pg dirIn dirOut ia ie ea ee : String)
    (ingressPorts egressPorts : List NetworkPolicyPort) (db : OvnDB)
    (hdir : dirIn ≠ dirOut)
    (h1 : ia ≠ ie) (h2 : ia ≠ ea) (h3 : ia ≠ ee) (h4 : ie ≠ ea) (h5 : ie ≠ ee) (h6 : ea ≠ ee) :
    reconcileEffect selected ingress egress ri re pg dirIn dirOut ia ie ea ee ingressPorts
        egressPorts
        (reconcileEffect selected ingress egress ri re pg dirIn dirOut ia ie ea ee ingressPorts
          egressPorts db) =
      reconcileEffect selected ingress egress ri re pg dirIn dirOut ia ie ea ee ingressPorts
        egressPorts db := by
  have hdirs := hdir.symm
  have h1s := h1.symm
  have h2s := h2.symm
  have h3s := h3.symm
  have h4s := h4.symm
  have h5s := h5.symm
  have h6s := h6.symm
  rcases selected with _ | ports <;> cases ingress <;> cases egress <;>
    rcases ri with _ | ⟨al, ex⟩ <;> rcases re with _ | ⟨al2, ex2⟩ <;>
    simp [reconcileEffect, branchEffect, branchAborts,
      tableCreate_of_hasKey, tableSet_of_hasValue, tableDelete_of_not_hasKey,
      hasKey_tableCreate, hasKey_tableSet, hasKey_tableDelete, hasValue_tableSet_self,
      hasValue_tableSet_ne, hasValue_tableCreate_ne, hasValue_tableDelete_ne,
      aclReplace, aclDelete_append, aclDelete_idem, aclDelete_absorb, aclDelete_nil,
      aclDelete_cons, h1, h2, h3, h4, h5, h6, h1s, h2s, h3s, h4s, h5s, h6s, hdir, hdirs]

/-! ### Listings in another order -/

theorem appendPorts_eq (acc : List String) (pods : List Pod) :
    appendPorts acc pods =
      acc ++ (pods.filter fun pod => !pod.HostNetwork).map
        fun pod => pod.Name ++ "." ++ pod.Namespace := by
  induction pods generalizing acc with
  | nil => simp [appendPorts]
  | cons pod rest ih =>
    unfold appendPorts
    cases h : pod.HostNetwork <;> simp [h, ih]

theorem memberSet_fetchSelectedPorts_relisted (c : Controller) (namespaces : List Namespace)
    (pods : List Pod) (ns : String) (selector : Option LabelSelector)
    (hpods : pods.Perm c.Pods) :
    memberSet ((c.relisted namespaces pods).fetchSelectedPorts ns selector) =
      memberSet (c.fetchSelectedPorts ns selector) := by
  unfold Controller.fetchSelectedPorts
  cases LabelSelectorAsSelector selector with
  | error e => rfl
  | ok sel =>
    simp only [Controller.podsListerList, Controller.relisted]
    cases c.listPodsErr ns with
    | some e => rfl
    | none =>
      simp only [memberSet, appendPorts_eq, List.nil_append, Controller.podsOfNamespace]
      congr 1
      apply List.toFinset_eq_of_perm
      exact (((hpods.filter _).filter _).filter _).map _

theorem nsAddressSet_relisted (c : Controller) (namespaces : List Namespace)
    (pods : List Pod) (sel : Option Selector) (ns : String) (hpods : pods.Perm c.Pods) :
    (c.relisted namespaces pods).nsAddressSet sel ns = c.nsAddressSet sel ns := by
  unfold Controller.nsAddressSet
  simp only [Controller.podsListerList, Controller.relisted, Controller.podsOfNamespace]
  cases c.listPodsErr ns with
  | some e => rfl
  | none =>
    have hperm := hpods.filter fun pod => ns == "" || pod.Namespace == ns
    cases sel with
    | some sel =>
      simp only
      congr 1
      apply List.toFinset_eq_of_perm
      exact (hperm.filter _).filterMap _
    | none =>
      have hempty : (pods.filter fun pod => ns == "" || pod.Namespace == ns).isEmpty =
          (c.Pods.filter fun pod => ns == "" || pod.Namespace == ns).isEmpty := by
        rw [Bool.eq_iff_iff, List.isEmpty_iff, List.isEmpty_iff]
        constructor
        · intro h
          rw [h] at hperm
          exact hperm.symm.eq_nil
        · intro h
          rw [h] at hperm
          exact hperm.eq_nil
      simp only [hempty]

theorem memberSet_appendNamespaceAddresses (c : Controller) (sel : Option Selector)
    (acc : List String) (nss : List String) :
    memberSet (c.appendNamespaceAddresses sel acc nss) =
      if (nss.all fun ns => (c.nsAddressSet sel ns).isSome) then
        some (acc.toFinset ∪ nss.toFinset.biUnion fun ns => (c.nsAddressSet sel ns).getD ∅)
      else none := by
  induction nss generalizing acc with
  | nil => simp [Controller.appendNamespaceAddresses, memberSet]
  | cons ns rest ih =>
    unfold Controller.appendNamespaceAddresses
    rcases hl : c.podsListerList ns sel with listed | e | _
    · simp only [ih, Controller.nsAddressSet, hl, appendPodAddresses_eq, List.all_cons,
        Option.isSome_some, Bool.true_and, List.toFinset_cons, Finset.biUnion_insert,
        Option.getD_some, List.toFinset_append, Finset.union_assoc]
    · simp [Controller.nsAddressSet, hl, memberSet]
    · simp [Controller.nsAddressSet, hl, memberSet]

theorem all_eq_of_perm {α : Type} (p : α → Bool) (l1 l2 : List α) (h : l2.Perm l1) :
    l2.all p = l1.all p := by
  rw [Bool.eq_iff_iff]
  simp only [List.all_eq_true]
  exact ⟨fun hall x hx => hall x (h.mem_iff.mpr hx), fun hall x hx => hall x (h.mem_iff.mp hx)⟩

theorem memberSet_appendNamespaceAddresses_relisted (c : Controller)
    (namespaces : List Namespace) (pods : List Pod) (sel : Option Selector)
    (acc : List String) (nss1 nss2 : List String) (hpods : pods.Perm c.Pods)
    (hnss : nss2.Perm nss1) :
    memberSet ((c.relisted namespaces pods).appendNamespaceAddresses sel acc nss2) =
      memberSet (c.appendNamespaceAddresses sel acc nss1) := by
  have hfun : (c.relisted namespaces pods).nsAddressSet sel = c.nsAddressSet sel :=
    funext fun ns => nsAddressSet_relisted c namespaces pods sel ns hpods
  rw [memberSet_appendNamespaceAddresses, memberSet_appendNamespaceAddresses, hfun,
    all_eq_of_perm _ nss1 nss2 hnss, List.toFinset_eq_of_perm _ _ hnss]

theorem selectedNamespaces_relisted (c : Controller) (namespaces : List Namespace)
    (pods : List Pod) (ns : String) (npp : NetworkPolicyPeer)
    (hns : namespaces.Perm c.Namespaces) :
    (∃ e, (c.relisted namespaces pods).selectedNamespaces ns npp = .error e ∧
        c.selectedNamespaces ns npp = .error e) ∨
      ∃ l1 l2, (c.relisted namespaces pods).selectedNamespaces ns npp = .ok l2 ∧
        c.selectedNamespaces ns npp = .ok l1 ∧ l2.Perm l1 := by
  unfold Controller.selectedNamespaces
  cases npp.NamespaceSelector with
  | none => exact Or.inr ⟨_, _, rfl, rfl, List.Perm.refl _⟩
  | some nsSel =>
    simp only
    cases LabelSelectorAsSelector (some nsSel) with
    | error e => exact Or.inl ⟨_, rfl, rfl⟩
    | ok sel =>
      simp only [Controller.namespacesListerList, Controller.relisted]
      cases c.listNamespacesErr with
      | some e => exact Or.inl ⟨_, rfl, rfl⟩
      | none =>
        refine Or.inr ⟨_, _, rfl, rfl, ?_⟩
        rw [foldl_append_names, foldl_append_names]
        exact ((hns.filter _).map _).append_left _

theorem resolvedSets_of_addresses (o : Outcome (List String)) :
    resolvedSets
        (match o with
          | .error e => .error e
          | .panic => .panic
          | .ok selectedAddresses => .ok (selectedAddresses, [])) =
      (memberSet o).map fun addresses => (addresses, ∅) := by
  rcases o with a | e | _ <;> simp [resolvedSets, memberSet]

theorem resolvedSets_fetch_relisted (c : Controller) (namespaces : List Namespace)
    (pods : List Pod) (ns : String) (npp : NetworkPolicyPeer)
    (hns : namespaces.Perm c.Namespaces) (hpods : pods.Perm c.Pods) :
    resolvedSets ((c.relisted namespaces pods).fetchPolicySelectedAddresses ns npp) =
      resolvedSets (c.fetchPolicySelectedAddresses ns npp) := by
  unfold Controller.fetchPolicySelectedAddresses
  cases npp.IPBlock with
  | some b => rfl
  | none =>
    simp only
    rcases selectedNamespaces_relisted c namespaces pods ns npp hns with
      ⟨e, h2, h1⟩ | ⟨l1, l2, h2, h1, hperm⟩
    · rw [h1, h2]
    · rw [h1, h2]
      simp only
      rw [resolvedSets_of_addresses, resolvedSets_of_addresses,
        memberSet_appendNamespaceAddresses_relisted c namespaces pods _ [] l1 l2 hpods hperm]

theorem resolvedSets_appendPeerAddresses_relisted (c : Controller)
    (namespaces : List Namespace) (pods : List Pod) (ns : String)
    (hns : namespaces.Perm c.Namespaces) (hpods : pods.Perm c.Pods)
    (peers : List NetworkPolicyPeer) (acc1 acc2 : List String × List String)
    (hacc : resolvedSets (.ok acc2) = resolvedSets (.ok acc1)) :
    resolvedSets ((c.relisted namespaces pods).appendPeerAddresses ns acc2 peers) =
      resolvedSets (c.appendPeerAddresses ns acc1 peers) := by
  induction peers generalizing acc1 acc2 with
  | nil =>
    obtain ⟨a1, e1⟩ := acc1
    obtain ⟨a2, e2⟩ := acc2
    simpa [Controller.appendPeerAddresses] using hacc
  | cons npp rest ih =>
    obtain ⟨a1, e1⟩ := acc1
    obtain ⟨a2, e2⟩ := acc2
    have hf := resolvedSets_fetch_relisted c namespaces pods ns npp hns hpods
    simp only [resolvedSets, Option.some.injEq, Prod.mk.injEq] at hacc
    unfold Controller.appendPeerAddresses
    rcases h2 : (c.relisted namespaces pods).fetchPolicySelectedAddresses ns npp
      with ⟨al2, ex2⟩ | e | _ <;>
    rcases h1 : c.fetchPolicySelectedAddresses ns npp with ⟨al1, ex1⟩ | e | _ <;>
    rw [h1, h2] at hf <;>
    first
      | (exfalso; simp [resolvedSets] at hf; done)
      | (simp only [resolvedSets]; done)
      | (simp only [resolvedSets, Option.some.injEq, Prod.mk.injEq] at hf
         apply ih
         simp only [resolvedSets, List.toFinset_append, hacc.1, hacc.2, hf.1, hf.2])

theorem resolvedSets_appendRuleAddresses_relisted (c : Controller)
    (namespaces : List Namespace) (pods : List Pod) (ns : String)
    (hns : namespaces.Perm c.Namespaces) (hpods : pods.Perm c.Pods)
    (rules : List (List NetworkPolicyPeer)) (acc1 acc2 : List String × List String)
    (hacc : resolvedSets (.ok acc2) = resolvedSets (.ok acc1)) :
    resolvedSets ((c.relisted namespaces pods).appendRuleAddresses ns acc2 rules) =
      resolvedSets (c.appendRuleAddresses ns acc1 rules) := by
  induction rules generalizing acc1 acc2 with
  | nil =>
    simpa [Controller.appendRuleAddresses] using hacc
  | cons peers rest ih =>
    have hp := resolvedSets_appendPeerAddresses_relisted c namespaces pods ns hns hpods peers
      acc1 acc2 hacc
    unfold Controller.appendRuleAddresses
    rcases h2 : (c.relisted namespaces pods).appendPeerAddresses ns acc2 peers
      with r2 | e | _ <;>
    rcases h1 : c.appendPeerAddresses ns acc1 peers with r1 | e | _ <;>
    rw [h1, h2] at hp <;>
    first
      | (exfalso; simp [resolvedSets] at hp; done)
      | (simp only [resolvedSets]; done)
      | exact ih r1 r2 hp

theorem policyEffect_relisted (c : Controller) (namespaces : List Namespace) (pods : List Pod)
    (np : NetworkPolicy) (db : OvnDB) (hns : namespaces.Perm c.Namespaces)
    (hpods : pods.Perm c.Pods) :
    (c.relisted namespaces pods).policyEffect np db = c.policyEffect np db := by
  unfold Controller.policyEffect
  rw [memberSet_fetchSelectedPorts_relisted c namespaces pods _ _ hpods,
    resolvedSets_appendRuleAddresses_relisted c namespaces pods _ hns hpods _ ([], []) ([], [])
      rfl,
    resolvedSets_appendRuleAddresses_relisted c namespaces pods _ hns hpods _ ([], []) ([], [])
      rfl]

theorem policyEffect_idempotent (c : Controller) (np : NetworkPolicy) (db : OvnDB) :
    c.policyEffect np (c.policyEffect np db) = c.policyEffect np db := by
  obtain ⟨h1, h2, h3, h4, h5, h6⟩ := asNames_distinct np.Name np.Namespace
  exact reconcileEffect_idempotent _ _ _ _ _ _ _ _ _ _ _ _ _ _ db lport_ne.1 h1 h2 h3 h4 h5 h6

/-- Each backend call of the model is idempotent by itself. -/
theorem OvnCall.apply_idempotent (call : OvnCall) (db : OvnDB) :
    call.apply (call.apply db) = call.apply db := by
  cases call <;>
    simp [OvnCall.apply, tableCreate_of_hasKey, tableSet_of_hasValue, tableDelete_of_not_hasKey,
      hasKey_tableCreate, hasKey_tableSet, hasKey_tableDelete, hasValue_tableSet_self,
      aclReplace, aclDelete_append, aclDelete_idem, aclDelete_nil, aclDelete_cons]

theorem npsListerGet_relisted (c : Controller) (namespaces : List Namespace) (pods : List Pod)
    (namespace_ name : String) :
    (c.relisted namespaces pods).npsListerGet namespace_ name = c.npsListerGet namespace_ name :=
  rfl

/-- C4: on a backend whose calls succeed, running `handleUpdateNp` a second time
on the backend the first run left, against the same cluster, leaves the
backend's port groups with their members, address sets with their members and
ACLs as the first run left them, also when the second run's listings return
the namespaces and pods in another order. -/
theorem handleUpdateNp_idempotent (c : Controller) (namespaces : List Namespace)
    (pods : List Pod) (key : String) (s : Ovn)
    (hback : ∀ call, c.ovnFails call = none)
    (hns : namespaces.Perm c.Namespaces) (hpods : pods.Perm c.Pods) :
    ((c.relisted namespaces pods).handleUpdateNp key (c.handleUpdateNp key s).2).2.db =
      (c.handleUpdateNp key s).2.db := by
  unfold Controller.handleUpdateNp
  rcases hkey : SplitMetaNamespaceKey key with e | ⟨namespace_, name⟩
  · rfl
  · simp only [npsListerGet_relisted]
    rcases hget : c.npsListerGet namespace_ name with np | _ | e
    · simp only
      obtain ⟨_, hd1⟩ := reconcilePolicy_effect c np s hback
      obtain ⟨_, hd2⟩ := reconcilePolicy_effect (c.relisted namespaces pods) np
        (c.reconcilePolicy np s).2 hback
      rw [hd2, hd1, policyEffect_relisted c namespaces pods np _ hns hpods]
      exact policyEffect_idempotent c np s.db
    · rfl
    · rfl

/-- C4 at the scenario's cluster, from the empty backend, with the second run
listing the two pods in the other order. -/
theorem handleUpdateNp_idempotent_witness :
    (∀ call, (shopCluster allowFrontendPlain [("app", "frontend")] [] "192.168.0.7").ovnFails
      call = none) ∧
    [⟨"shop", []⟩].Perm
      (shopCluster allowFrontendPlain [("app", "frontend")] [] "192.168.0.7").Namespaces ∧
    [web2 [("app", "frontend")] [] "192.168.0.7", web1].Perm
      (shopCluster allowFrontendPlain [("app", "frontend")] [] "192.168.0.7").Pods ∧
    (((shopCluster allowFrontendPlain [("app", "frontend")] [] "192.168.0.7").relisted
        [⟨"shop", []⟩] [web2 [("app", "frontend")] [] "192.168.0.7", web1]).handleUpdateNp
        "shop/allow-frontend"
        ((shopCluster allowFrontendPlain [("app", "frontend")] [] "192.168.0.7").handleUpdateNp
          "shop/allow-frontend" emptyOvn).2).2.db =
      ((shopCluster allowFrontendPlain [("app", "frontend")] [] "192.168.0.7").handleUpdateNp
        "shop/allow-frontend" emptyOvn).2.db :=
  ⟨fun _ => rfl, by decide, by decide,
    handleUpdateNp_idempotent
      (shopCluster allowFrontendPlain [("app", "frontend")] [] "192.168.0.7") [⟨"shop", []⟩]
      [web2 [("app", "frontend")] [] "192.168.0.7", web1] "shop/allow-frontend" emptyOvn
      (fun _ => rfl) (by decide) (by decide)⟩

/-- The relisted run of the witness does hand the backend its addresses in
another order than the first run; the backend's state is the same. -/
theorem relisted_run_other_order :
    OvnCall.SetAddressesToAddressSet ["10.1.2.3", "192.168.0.7"]
        "allow.frontend.shop.ingress.allow" ∈
      ((shopCluster allowFrontendPlain [("app", "frontend")] [] "192.168.0.7").handleUpdateNp
        "shop/allow-frontend" emptyOvn).2.trace ∧
    OvnCall.SetAddressesToAddressSet ["192.168.0.7", "10.1.2.3"]
        "allow.frontend.shop.ingress.allow" ∈
      (((shopCluster allowFrontendPlain [("app", "frontend")] [] "192.168.0.7").relisted
        [⟨"shop", []⟩] [web2 [("app", "frontend")] [] "192.168.0.7", web1]).handleUpdateNp
        "shop/allow-frontend" emptyOvn).2.trace := by
  decide

theorem bind_eq_ok {α β : Type} (m : OvnM α) (f : α → OvnM β) (s s2 : Ovn) (b : β)
    (h : (m >>= f) s = (.ok b, s2)) : ∃ a s1, m s = (.ok a, s1) ∧ f a s1 = (.ok b, s2) := by
  rw [bind_apply] at h
  unfold OvnM.bind at h
  rcases hm : m s with ⟨r, s1⟩
  rw [hm] at h
  rcases r with a | e | _
  · exact ⟨a, s1, rfl, h⟩
  · simp at h
  · simp at h

theorem ovnClient_eq_ok (c : Controller) (call : OvnCall) (s s2 : Ovn) (u : Unit)
    (h : c.ovnClient call s = (.ok u, s2)) : s2.db = call.apply s.db := by
  unfold Controller.ovnClient at h
  cases hf : c.ovnFails call with
  | some e => simp [hf] at h
  | none =>
    simp [hf] at h
    rw [← h]

theorem hasEgressRule_of_ingress_only (np : NetworkPolicy) (htypes : np.PolicyTypes = ["Ingress"])
    (hegress : np.Egress = none) : hasEgressRule np = false := by
  have : stringsContains "Ingress" "Egress" = false := by decide
  simp [hasEgressRule, htypes, hegress, this]

theorem reconcileEgress_inactive_ok (c : Controller) (np : NetworkPolicy) (pg ea ee : String)
    (ports : List NetworkPolicyPort) (s s2 : Ovn) (u : Unit) (he : hasEgressRule np = false)
    (h : c.reconcileEgress np pg ea ee ports s = (.ok u, s2)) :
    s2.db = (OvnCall.DeleteAddressSet ee).apply ((OvnCall.DeleteAddressSet ea).apply
      ((OvnCall.DeleteACL pg "from-lport").apply s.db)) := by
  unfold Controller.reconcileEgress at h
  simp only [he, Bool.false_eq_true, if_false] at h
  obtain ⟨a1, s1, hm1, h⟩ := bind_eq_ok _ _ _ _ _ h
  obtain ⟨a2, s3, hm2, h⟩ := bind_eq_ok _ _ _ _ _ h
  rw [ovnClient_eq_ok c _ _ _ _ h, ovnClient_eq_ok c _ _ _ _ hm2, ovnClient_eq_ok c _ _ _ _ hm1]

/-- C5 as amended: for a policy whose `PolicyTypes` is `[Ingress]` and whose
`Egress` is absent (nil), whatever the backend held before, after a
`handleUpdateNp` that returns no error the backend holds no "from-lport" ACL on
the policy's port group and neither of the policy's two egress address sets. -/
theorem handleUpdateNp_deletes_egress (c : Controller) (key namespace_ name : String)
    (np : NetworkPolicy) (s s2 : Ovn)
    (hkey : SplitMetaNamespaceKey key = .ok (namespace_, name))
    (hget : c.npsListerGet namespace_ name = .found np)
    (htypes : np.PolicyTypes = ["Ingress"]) (hegress : np.Egress = none)
    (hrun : c.handleUpdateNp key s = (.ok (), s2)) :
    (∀ a ∈ s2.db.acls,
      ¬ (a.pgName = pgName np.Name np.Namespace ∧ a.direction = "from-lport")) ∧
    egressAllowAsName np.Name np.Namespace ∉ s2.db.addressSets.map Prod.fst ∧
    egressExceptAsName np.Name np.Namespace ∉ s2.db.addressSets.map Prod.fst := by
  unfold Controller.handleUpdateNp at hrun
  simp only [hkey, hget] at hrun
  unfold Controller.reconcilePolicy at hrun
  obtain ⟨_, s3, _, hrun⟩ := bind_eq_ok _ _ _ _ _ hrun
  obtain ⟨_, s4, _, hrun⟩ := bind_eq_ok _ _ _ _ _ hrun
  obtain ⟨_, s5, _, hrun⟩ := bind_eq_ok _ _ _ _ _ hrun
  obtain ⟨_, s6, _, hrun⟩ := bind_eq_ok _ _ _ _ _ hrun
  have hdb := reconcileEgress_inactive_ok c np _ _ _ _ s6 s2 ()
    (hasEgressRule_of_ingress_only np htypes hegress) hrun
  rw [hdb]
  have h6 := (asNames_distinct np.Name np.Namespace).2.2.2.2.2
  refine ⟨?_, ?_, ?_⟩
  · intro a ha
    simp only [OvnCall.apply, aclDelete, List.mem_filter, decide_eq_true_eq] at ha
    exact ha.2
  · show ¬ HasKey _ _
    simp [OvnCall.apply, hasKey_tableDelete, h6]
  · show ¬ HasKey _ _
    simp [OvnCall.apply, hasKey_tableDelete]

/-- C5 as amended, at the scenario's policy, on a backend that holds the policy's egress ACL
and both egress address sets from an earlier rule set. -/
theorem handleUpdateNp_deletes_egress_witness :
    SplitMetaNamespaceKey "shop/allow-frontend" = .ok ("shop", "allow-frontend") ∧
    (shopCluster allowFrontendPlain [] [] "").npsListerGet "shop" "allow-frontend" = .found allowFrontendPlain ∧
    allowFrontendPlain.PolicyTypes = ["Ingress"] ∧ allowFrontendPlain.Egress = none ∧
    (⟨"allow-frontend.shop", "from-lport", "allow.frontend.shop.egress.allow",
      "allow.frontend.shop.egress.except", []⟩ : ACL) ∈ staleEgress.db.acls ∧
    (shopCluster allowFrontendPlain [] [] "").handleUpdateNp "shop/allow-frontend" staleEgress =
      (.ok (), ((shopCluster allowFrontendPlain [] [] "").handleUpdateNp "shop/allow-frontend" staleEgress).2) ∧
    ((∀ a ∈ ((shopCluster allowFrontendPlain [] [] "").handleUpdateNp "shop/allow-frontend" staleEgress).2.db.acls,
      ¬ (a.pgName = pgName allowFrontendPlain.Name allowFrontendPlain.Namespace ∧
        a.direction = "from-lport")) ∧
    egressAllowAsName allowFrontendPlain.Name allowFrontendPlain.Namespace ∉
      ((shopCluster allowFrontendPlain [] [] "").handleUpdateNp "shop/allow-frontend"
        staleEgress).2.db.addressSets.map Prod.fst ∧
    egressExceptAsName allowFrontendPlain.Name allowFrontendPlain.Namespace ∉
      ((shopCluster allowFrontendPlain [] [] "").handleUpdateNp "shop/allow-frontend"
        staleEgress).2.db.addressSets.map Prod.fst) :=
  ⟨by decide, by decide, rfl, rfl, by decide, by decide,
    handleUpdateNp_deletes_egress (shopCluster allowFrontendPlain [] [] "") "shop/allow-frontend" "shop"
      "allow-frontend" allowFrontendPlain staleEgress _ (by decide) (by decide) rfl rfl (by decide)⟩

/-- C5 as stated fails: a policy whose `PolicyTypes` is `[Ingress]` and whose
`Egress` is an empty list that is not nil has no egress rule, yet
`hasEgressRule` is true of it (line 399 tests `Egress != nil`) and
`handleUpdateNp` creates both egress address sets and the "from-lport" ACL. -/
theorem handleUpdateNp_deletes_egress_counterexample :
    emptyEgressPolicy.PolicyTypes = ["Ingress"] ∧
    emptyEgressPolicy.Egress = some [] ∧
    hasEgressRule emptyEgressPolicy = true ∧
    ((shopCluster emptyEgressPolicy [] [] "").handleUpdateNp "shop/allow-frontend" emptyOvn).1 =
      .ok () ∧
    ⟨"allow-frontend.shop", "from-lport", "allow.frontend.shop.egress.allow",
        "allow.frontend.shop.egress.except", []⟩ ∈
      ((shopCluster emptyEgressPolicy [] [] "").handleUpdateNp "shop/allow-frontend"
        emptyOvn).2.db.acls ∧
    egressAllowAsName emptyEgressPolicy.Name emptyEgressPolicy.Namespace ∈
      ((shopCluster emptyEgressPolicy [] [] "").handleUpdateNp "shop/allow-frontend"
        emptyOvn).2.db.addressSets.map Prod.fst ∧
    egressExceptAsName emptyEgressPolicy.Name emptyEgressPolicy.Namespace ∈
      ((shopCluster emptyEgressPolicy [] [] "").handleUpdateNp "shop/allow-frontend"
        emptyOvn).2.db.addressSets.map Prod.fst := by
  decide

theorem shopCluster_fetchSelectedPorts (target : LabelSelector) (policyTypes : List String)
    (ports : List NetworkPolicyPort) (labels annotations : LabelSet) (podIP : String)
    (htarget : converts target = true) :
    (shopCluster (allowFrontend target policyTypes ports) labels annotations
        podIP).fetchSelectedPorts (allowFrontend target policyTypes ports).Namespace
      (some (allowFrontend target policyTypes ports).PodSelector) =
      .ok (if selectorMatches target [("app", "frontend")] then ["web-1.shop"] else []) := by
  have hns : ("shop" == "") = false := by decide
  have hname : "web-1" ++ "." ++ "shop" = "web-1.shop" := by decide
  unfold converts at htarget
  cases hc : LabelSelectorAsSelector (some target) with
  | error e => simp [hc] at htarget
  | ok sel =>
    cases h1 : sel.Matches [("app", "frontend")] <;> cases h2 : sel.Matches labels <;>
      simp [Controller.fetchSelectedPorts, allowFrontend, hc, selectorMatches,
        Controller.podsListerList, shopCluster, Controller.podsOfNamespace,
        web1, web2, appendPorts, hns, hname, h1, h2]

theorem shopCluster_ingress_addresses (np : NetworkPolicy) (labels annotations : LabelSet)
    (podIP : String)
    (h2 : selectorMatches frontendSelector labels = false ∨
      podAddress (web2 labels annotations podIP) = none) :
    (shopCluster np labels annotations podIP).appendRuleAddresses "shop" ([], [])
      [[⟨some frontendSelector, none, none⟩]] = .ok (["10.1.2.3"], []) := by
  have hfetch := fetchPolicySelectedAddresses_eq_resolved (shopCluster np labels annotations podIP)
    "shop" ⟨some frontendSelector, none, none⟩ rfl (by simp)
    (by intro ps hps; simp at hps; subst hps; decide) rfl (fun _ => rfl)
  have hw1 : selectorMatches frontendSelector [("app", "frontend")] = true := by decide
  have ha1 : podAddress web1 = some "10.1.2.3" := by decide
  have hres : (shopCluster np labels annotations podIP).resolvedAddresses "shop"
      ⟨some frontendSelector, none, none⟩ = ["10.1.2.3"] := by
    simp only [Controller.resolvedAddresses, Controller.candidateNamespaces,
      Controller.matchedPods, Controller.podsOfNamespace, shopCluster, List.flatMap_cons,
      List.flatMap_nil, List.append_nil]
    have hf : List.filter (fun pod => "shop" == "" || pod.Namespace == "shop")
        [web1, web2 labels annotations podIP] = [web1, web2 labels annotations podIP] := by
      simp [web1, web2]
    rw [hf]
    have hsel1 : workloadSelected ⟨some frontendSelector, none, none⟩ web1 = true := by
      simpa [workloadSelected, web1] using hw1
    rcases h2 with h2 | h2
    · have hsel2 : workloadSelected ⟨some frontendSelector, none, none⟩
          (web2 labels annotations podIP) = false := by
        simpa [workloadSelected, web2] using h2
      simp [List.filter_cons, hsel1, hsel2, ha1]
    · cases hsel2 : workloadSelected ⟨some frontendSelector, none, none⟩
          (web2 labels annotations podIP) <;>
        simp [List.filter_cons, hsel1, hsel2, ha1, h2]
  rw [hres] at hfetch
  simp [Controller.appendRuleAddresses, Controller.appendPeerAddresses, hfetch]

theorem reconcileEffect_ingress_only (ports al ex : Finset String)
    (re : Option (Finset String × Finset String)) (pg dirIn dirOut ia ie ea ee : String)
    (ingressPorts egressPorts : List NetworkPolicyPort) (hne : ia ≠ ie)
    (h1 : ia ≠ ea) (h2 : ia ≠ ee) (h3 : ie ≠ ea) (h4 : ie ≠ ee) (hdir : dirIn ≠ dirOut) :
    reconcileEffect (some ports) true false (some (al, ex)) re pg dirIn dirOut ia ie ea ee
        ingressPorts egressPorts ⟨[], [], []⟩ =
      { portGroups := [(pg, ports)],
        addressSets := [(ia, al), (ie, ex)],
        acls := [⟨pg, dirIn, ia, ie, ingressPorts⟩] } := by
  have hne2 := hne.symm
  simp [reconcileEffect, branchAborts, branchEffect, tableCreate, tableSet, tableDelete,
    aclReplace, aclDelete, hne, hne2, h1, h2, h3, h4, hdir]

theorem branchOutcome_ingress_only (al ex : List String)
    (re : Outcome (List String × List String)) :
    branchOutcome true (.ok (al, ex)) = .ok () ∧ branchOutcome false re = .ok () :=
  ⟨rfl, rfl⟩

/-- What C6 states holds when `web-2` has no address to give: in the scenario,
whatever the policy's target selector (as long as it converts), its policy
types (as long as none names egress) and the rule's ports, when the
host-network workload `web-2` does not carry the label `app: frontend` or has
neither an assigned-address annotation nor a pod IP, `handleUpdateNp` from the
empty backend succeeds and leaves exactly: the port group
`allow-frontend.shop`, whose only possible member is `web-1`; the address set
`allow.frontend.shop.ingress.allow` holding 10.1.2.3 alone; the empty set
`allow.frontend.shop.ingress.except`; and one ingress ACL on the port group
referencing both sets. No egress ACL and no egress set is left. -/
theorem handleUpdateNp_scenario (target : LabelSelector) (policyTypes : List String)
    (ports : List NetworkPolicyPort) (labels annotations : LabelSet) (podIP : String)
    (htarget : converts target = true)
    (htypes : (policyTypes.any fun pt => stringsContains pt "Egress") = false)
    (h2 : selectorMatches frontendSelector labels = false ∨
      podAddress (web2 labels annotations podIP) = none) :
    ((shopCluster (allowFrontend target policyTypes ports) labels annotations
        podIP).handleUpdateNp "shop/allow-frontend" emptyOvn).1 = .ok () ∧
    ((shopCluster (allowFrontend target policyTypes ports) labels annotations
        podIP).handleUpdateNp "shop/allow-frontend" emptyOvn).2.db =
      { portGroups := [("allow-frontend.shop",
          if selectorMatches target [("app", "frontend")] then {"web-1.shop"} else ∅)],
        addressSets := [("allow.frontend.shop.ingress.allow", {"10.1.2.3"}),
          ("allow.frontend.shop.ingress.except", ∅)],
        acls := [⟨"allow-frontend.shop", "to-lport", "allow.frontend.shop.ingress.allow",
          "allow.frontend.shop.ingress.except", ports⟩] } := by
  have hkey : SplitMetaNamespaceKey "shop/allow-frontend" = .ok ("shop", "allow-frontend") := by
    decide
  have hget : (shopCluster (allowFrontend target policyTypes ports) labels annotations
      podIP).npsListerGet "shop" "allow-frontend" =
      .found (allowFrontend target policyTypes ports) := by
    have : ("shop" == "shop" && "allow-frontend" == "allow-frontend") = true := by decide
    simp [Controller.npsListerGet, shopCluster, List.find?, allowFrontend, this]
  obtain ⟨ho, hd⟩ := reconcilePolicy_effect
    (shopCluster (allowFrontend target policyTypes ports) labels annotations podIP)
    (allowFrontend target policyTypes ports) emptyOvn (fun _ => rfl)
  have hin : hasIngressRule (allowFrontend target policyTypes ports) = true := by
    simp [hasIngressRule, allowFrontend]
  have heg : hasEgressRule (allowFrontend target policyTypes ports) = false := by
    simp only [hasEgressRule, allowFrontend, htypes]
    rfl
  have hpg : pgName "allow-frontend" "shop" = "allow-frontend.shop" := by decide
  have hia : ingressAllowAsName "allow-frontend" "shop" = "allow.frontend.shop.ingress.allow" := by
    decide
  have hie : ingressExceptAsName "allow-frontend" "shop" =
      "allow.frontend.shop.ingress.except" := by decide
  have hne : "allow.frontend.shop.ingress.allow" ≠ "allow.frontend.shop.ingress.except" := by
    decide
  have hports := shopCluster_fetchSelectedPorts target policyTypes ports labels annotations podIP
    htarget
  have haddr := shopCluster_ingress_addresses (allowFrontend target policyTypes ports) labels
    annotations podIP h2
  unfold Controller.handleUpdateNp
  simp only [hkey, hget]
  rw [ho, hd]
  unfold Controller.policyOutcome Controller.policyEffect
  rw [hports, hin, heg]
  have hfrom : ((allowFrontend target policyTypes ports).Ingress.getD []).map (·.From) =
      [[⟨some frontendSelector, none, none⟩]] := rfl
  have hnsp : (allowFrontend target policyTypes ports).Namespace = "shop" := rfl
  have hnm : (allowFrontend target policyTypes ports).Name = "allow-frontend" := rfl
  have hip : ((allowFrontend target policyTypes ports).Ingress.getD []).foldl
      (fun ports npr => ports ++ npr.Ports) [] = ports := by
    simp [allowFrontend]
  rw [hfrom, hnsp, hnm, hip, haddr, hpg, hia, hie]
  refine ⟨rfl, ?_⟩
  have hset : (if selectorMatches target [("app", "frontend")] then ["web-1.shop"]
      else ([] : List String)).toFinset =
      if selectorMatches target [("app", "frontend")] then {"web-1.shop"} else ∅ := by
    cases selectorMatches target [("app", "frontend")] <;> simp
  simp only [memberSet, resolvedSets, hset]
  exact reconcileEffect_ingress_only _ _ _ _ _ _ _ _ _ _ _ _ _ hne (by decide) (by decide)
    (by decide) (by decide) (by decide)

/-- The scenario at a host-network `web-2` that carries the label
`app: frontend` but has no address. -/
theorem handleUpdateNp_scenario_witness :
    converts selectAll = true ∧
    ((["Ingress"].any fun pt => stringsContains pt "Egress") = false) ∧
    (selectorMatches frontendSelector [("app", "frontend")] = false ∨
      podAddress (web2 [("app", "frontend")] [] "") = none) ∧
    ((shopCluster (allowFrontend selectAll ["Ingress"] []) [("app", "frontend")] []
        "").handleUpdateNp "shop/allow-frontend" emptyOvn).1 = .ok () ∧
    ((shopCluster (allowFrontend selectAll ["Ingress"] []) [("app", "frontend")] []
        "").handleUpdateNp "shop/allow-frontend" emptyOvn).2.db =
      { portGroups := [("allow-frontend.shop",
          if selectorMatches selectAll [("app", "frontend")] then {"web-1.shop"} else ∅)],
        addressSets := [("allow.frontend.shop.ingress.allow", {"10.1.2.3"}),
          ("allow.frontend.shop.ingress.except", ∅)],
        acls := [⟨"allow-frontend.shop", "to-lport", "allow.frontend.shop.ingress.allow",
          "allow.frontend.shop.ingress.except", []⟩] } :=
  ⟨by decide, by decide, by decide,
    handleUpdateNp_scenario selectAll ["Ingress"] [] [("app", "frontend")] [] "" (by decide)
      (by decide) (by decide)⟩

/-- C6, the code at a failing input: a host-network `web-2` in `shop` that
carries the label `app: frontend` and has the pod IP 192.168.0.7 is left out of
the port group by `fetchSelectedPorts` (line 374), but
`fetchPolicySelectedAddresses` does not look at `HostNetwork` (lines 440-448):
its address is handed to the backend and the ingress allow set holds it next to
10.1.2.3, where the claim has the set hold 10.1.2.3 alone. -/
theorem handleUpdateNp_scenario_hostNetwork_address :
    (web2 [("app", "frontend")] [] "192.168.0.7").HostNetwork = true ∧
    ((shopCluster allowFrontendPlain [("app", "frontend")] [] "192.168.0.7").handleUpdateNp
        "shop/allow-frontend" emptyOvn).1 = .ok () ∧
    ((shopCluster allowFrontendPlain [("app", "frontend")] [] "192.168.0.7").handleUpdateNp
        "shop/allow-frontend" emptyOvn).2.db.portGroups =
      [("allow-frontend.shop", {"web-1.shop"})] ∧
    ((shopCluster allowFrontendPlain [("app", "frontend")] [] "192.168.0.7").handleUpdateNp
        "shop/allow-frontend" emptyOvn).2.db.addressSets =
      [("allow.frontend.shop.ingress.allow", {"10.1.2.3", "192.168.0.7"}),
        ("allow.frontend.shop.ingress.except", ∅)] ∧
    "192.168.0.7" ∈ ((((shopCluster allowFrontendPlain [("app", "frontend")] []
        "192.168.0.7").handleUpdateNp "shop/allow-frontend"
        emptyOvn).2.db.addressSets.lookup "allow.frontend.shop.ingress.allow").getD ∅) ∧
    OvnCall.SetAddressesToAddressSet ["10.1.2.3", "192.168.0.7"]
        "allow.frontend.shop.ingress.allow" ∈
      ((shopCluster allowFrontendPlain [("app", "frontend")] [] "192.168.0.7").handleUpdateNp
        "shop/allow-frontend" emptyOvn).2.trace ∧
    (shopCluster allowFrontendPlain [("app", "frontend")] []
        "192.168.0.7").fetchPolicySelectedAddresses "shop" ⟨some frontendSelector, none, none⟩ =
      .ok (["10.1.2.3", "192.168.0.7"], []) := by
  decide

end KubeOvn
